import Mathlib

/-!
# Verification of the `loop` evaluation / self-improvement pipeline

Shallow embedding of the core of the `loop` document-QA evaluation system:
the eval runner (`runEval`, `parseRunFile`), the dimension analyzer
(`analyzeByDimension`, `findWorst`), the judge trainer (`createJudge`), the
prompt improver (`suggestImprovement`, `applyImprovement`), the signal
detector (`detectSignals`), the chat miner (`mineChatsForQA`,
`minedToQAPairs`) and the versioned benchmark store
(`saveBenchmarkVersion`).

External effects (LLM calls, answer generation, clocks, JSON (de)serialization
and random shuffling) are passed in as explicit oracle/environment parameters;
file writes are modelled as explicit event traces or state transitions.
All numeric accuracies use `ℚ`.
-/

namespace Loop

/-! ## JS string primitives -/

/-- JS whitespace test used by `String.prototype.trim` (ASCII part). -/
def isJsWs (c : Char) : Bool :=
  c = ' ' || c = '\t' || c = '\n' || c = '\r' || c = '\x0b' || c = '\x0c'

/-- JS `String.prototype.trim`: strip leading and trailing whitespace. -/
def jsTrim (s : String) : String :=
  ⟨((s.data.dropWhile isJsWs).reverse.dropWhile isJsWs).reverse⟩

/-- JS `String.prototype.toLowerCase` (ASCII): lowercase each character. -/
def jsToLower (s : String) : String :=
  ⟨s.data.map Char.toLower⟩

/-- Lowercase ASCII letter or digit (the character class `[a-z0-9]`). -/
def isAlnumLower (c : Char) : Bool :=
  ('a' ≤ c && c ≤ 'z') || ('0' ≤ c && c ≤ '9')

/-- Accumulator-based splitting of a char list into maximal runs satisfying
`p` (the semantics of `text.match(/[a-z0-9]+/g)` when `p = isAlnumLower`). -/
def splitRunsGo (p : Char → Bool) (acc : List Char) : List Char → List String
  | [] => if acc.isEmpty then [] else [⟨acc.reverse⟩]
  | c :: cs =>
    if p c then splitRunsGo p (c :: acc) cs
    else if acc.isEmpty then splitRunsGo p [] cs
    else ⟨acc.reverse⟩ :: splitRunsGo p [] cs

/-- All maximal runs of characters satisfying `p`. -/
def splitRuns (p : Char → Bool) (cs : List Char) : List String :=
  splitRunsGo p [] cs

/-- First-occurrence deduplication: the element order of a JS `Set` or
`Map` built by insertion (`if (!seen.has(x)) seen.add(x)` over the list). -/
def firstDedup {α : Type} [DecidableEq α] (l : List α) : List α :=
  l.foldl (fun acc x => if acc.contains x then acc else acc ++ [x]) []

/-! ## Shared eval data model (`runner.ts`) -/

/-- The four optional dimension tags carried by a QA pair / result entry. -/
structure Dimensions where
  questionType : Option String
  difficulty : Option String
  sourceFormat : Option String
  edgeCase : Option String
deriving DecidableEq, Repr

/-- `QAPair` (benchmark ground truth row). -/
structure QAPair where
  id : String
  question : String
  expectedAnswer : String
  source : String
  dimensions : Dimensions
  status : String
deriving DecidableEq, Repr

/-- `EvalResultEntry`: one graded pair. -/
structure EvalResultEntry where
  id : String
  question : String
  expectedAnswer : String
  actualAnswer : String
  pass : Bool
  reason : String
  elapsed : Nat
  dimensions : Dimensions
deriving DecidableEq, Repr

/-- `EvalRunMeta` record. -/
structure EvalRunMeta where
  benchmark : String
  version : String
  startTime : String
  systemPromptHash : String
  pairCount : Nat
deriving DecidableEq, Repr

/-- `EvalRunSummary` record. -/
structure EvalRunSummary where
  total : Nat
  pass : Nat
  fail : Nat
  accuracy : ℚ
  elapsed : Nat
deriving DecidableEq, Repr

/-- A complete (or reconstructed) eval run. -/
structure EvalRun where
  id : String
  meta : EvalRunMeta
  results : List EvalResultEntry
  summary : EvalRunSummary
deriving DecidableEq, Repr

/-! ## Dimension analyzer (`analyzer.ts`) -/

/-- `FailureExample` projected from a failing result. -/
structure FailureExample where
  id : String
  question : String
  expectedAnswer : String
  actualAnswer : String
  reason : String
deriving DecidableEq, Repr

/-- `DimensionSlice`: aggregate stats for one dimension value. -/
structure DimensionSlice where
  total : Nat
  pass : Nat
  fail : Nat
  accuracy : ℚ
  failures : List FailureExample
deriving DecidableEq, Repr

/-- `WorstDimension`. -/
structure WorstDimension where
  dimension : String
  value : String
  accuracy : ℚ
  total : Nat
  failures : List FailureExample
deriving DecidableEq, Repr

/-- Projection of a failing entry into a `FailureExample`
(the object literal inside `sliceBy`). -/
def toFailure (r : EvalResultEntry) : FailureExample :=
  { id := r.id, question := r.question, expectedAnswer := r.expectedAnswer
    actualAnswer := r.actualAnswer, reason := r.reason }

/-- Aggregate a group of entries into a `DimensionSlice`
(the loop body over `groups` in `sliceBy`). -/
def sliceOf (items : List EvalResultEntry) : DimensionSlice :=
  let pass := (items.filter (·.pass)).length
  { total := items.length
    pass := pass
    fail := items.length - pass
    accuracy := if items.length > 0 then (pass : ℚ) / (items.length : ℚ) else 0
    failures := (items.filter (fun r => !r.pass)).map toFailure }

/-- The key a result contributes to a dimension: the tag value, or
`"unknown"` when the tag is missing/empty (JS `keyFn(r) || "unknown"`). -/
def dimKey (keyFn : EvalResultEntry → Option String) (r : EvalResultEntry) : String :=
  match keyFn r with
  | some v => if v = "" then "unknown" else v
  | none => "unknown"

/-- `sliceBy`: group results by key in first-occurrence order (a JS `Map`),
then aggregate each group. -/
def sliceBy (results : List EvalResultEntry)
    (keyFn : EvalResultEntry → Option String) : List (String × DimensionSlice) :=
  (firstDedup (results.map (dimKey keyFn))).map
    (fun k => (k, sliceOf (results.filter (fun r => dimKey keyFn r = k))))

/-- `DimensionAnalysis`. -/
structure DimensionAnalysis where
  byQuestionType : List (String × DimensionSlice)
  byDifficulty : List (String × DimensionSlice)
  bySourceFormat : List (String × DimensionSlice)
  byEdgeCase : List (String × DimensionSlice)
  worst : Option WorstDimension
  overallTotal : Nat
  overallPass : Nat
  overallFail : Nat
  overallAccuracy : ℚ
deriving DecidableEq, Repr

/-- The candidate `(dimension, value, slice)` triples `findWorst` actually
considers: every slice of every dimension, skipping `"unknown"` values and
empty slices (the two `continue`s). -/
def worstCandidates (allDimensions : List (String × List (String × DimensionSlice))) :
    List (String × String × DimensionSlice) :=
  allDimensions.flatMap (fun d =>
    d.2.filterMap (fun vs =>
      if vs.1 = "unknown" then none
      else if vs.2.total = 0 then none
      else some (d.1, vs.1, vs.2)))

/-- Build a `WorstDimension` from a candidate. -/
def mkWorst (c : String × String × DimensionSlice) : WorstDimension :=
  { dimension := c.1, value := c.2.1, accuracy := c.2.2.accuracy
    total := c.2.2.total, failures := c.2.2.failures }

/-- One update step of `findWorst`'s running minimum. -/
def updWorst (w : Option WorstDimension) (c : String × String × DimensionSlice) :
    Option WorstDimension :=
  match w with
  | none => some (mkWorst c)
  | some w' =>
    if c.2.2.accuracy < w'.accuracy ∨
       (c.2.2.accuracy = w'.accuracy ∧ c.2.2.fail > w'.failures.length) then
      some (mkWorst c)
    else some w'

/-- `findWorst`: fold the update rule over all candidates, in dimension order
then slice insertion order. -/
def findWorst (allDimensions : List (String × List (String × DimensionSlice))) :
    Option WorstDimension :=
  (worstCandidates allDimensions).foldl updWorst none

/-- `analyzeByDimension`. -/
def analyzeByDimension (run : EvalRun) : DimensionAnalysis :=
  let results := run.results
  let byQuestionType := sliceBy results (fun r => r.dimensions.questionType)
  let byDifficulty := sliceBy results (fun r => r.dimensions.difficulty)
  let bySourceFormat := sliceBy results (fun r => r.dimensions.sourceFormat)
  let byEdgeCase := sliceBy results (fun r => r.dimensions.edgeCase)
  let passCount := (results.filter (·.pass)).length
  { byQuestionType := byQuestionType
    byDifficulty := byDifficulty
    bySourceFormat := bySourceFormat
    byEdgeCase := byEdgeCase
    worst := findWorst
      [("questionType", byQuestionType), ("difficulty", byDifficulty),
       ("sourceFormat", bySourceFormat), ("edgeCase", byEdgeCase)]
    overallTotal := results.length
    overallPass := passCount
    overallFail := results.length - passCount
    overallAccuracy :=
      if results.length > 0 then (passCount : ℚ) / (results.length : ℚ) else 0 }

/-! ## Eval runner (`runner.ts`) -/

/-- Grader output (`GradeResult`). -/
structure GradeResult where
  pass : Bool
  reason : String
deriving DecidableEq, Repr

/-- Outcome of executing one pair: either the Pi answer and its grade, or a
thrown error's message (session error, grading error, timeout, ...). -/
inductive PairOutcome where
  | ok (answer : String) (grade : GradeResult)
  | err (msg : String)
deriving DecidableEq, Repr

/-- External environment of `runEval`: the answer+grading services (indexed
by pair position) and the wall clock. -/
structure RunEnv where
  outcome : Nat → QAPair → PairOutcome
  elapsedOf : Nat → Nat
  totalElapsed : Nat

/-- One observable event of a run: a line appended to the run log, or an
`onProgress` callback. -/
inductive RunEvent where
  | writeMeta (m : EvalRunMeta)
  | writeResult (e : EvalResultEntry)
  | progress (done total : Nat) (e : EvalResultEntry)
  | writeSummary (s : EvalRunSummary)
deriving DecidableEq, Repr

/-- The result entry produced for pair `i`: the `try` branch on success, the
`catch` branch (failing entry, `reason = "Error: " + message`) on a thrown
error. -/
def evalEntry (env : RunEnv) (i : Nat) (pair : QAPair) : EvalResultEntry :=
  match env.outcome i pair with
  | .ok answer grade =>
    { id := pair.id, question := pair.question
      expectedAnswer := pair.expectedAnswer
      actualAnswer := jsTrim answer
      pass := grade.pass, reason := grade.reason
      elapsed := env.elapsedOf i, dimensions := pair.dimensions }
  | .err msg =>
    { id := pair.id, question := pair.question
      expectedAnswer := pair.expectedAnswer
      actualAnswer := ""
      pass := false, reason := "Error: " ++ msg
      elapsed := env.elapsedOf i, dimensions := pair.dimensions }

/-- Summary record computed at the end of `runEval`. -/
def mkSummary (results : List EvalResultEntry) (elapsed : Nat) : EvalRunSummary :=
  let passCount := (results.filter (·.pass)).length
  { total := results.length
    pass := passCount
    fail := results.length - passCount
    accuracy := if results.length > 0 then (passCount : ℚ) / (results.length : ℚ) else 0
    elapsed := elapsed }

/-- The `limit` option: applied only when truthy (nonzero) and smaller than
the pair count (`opts?.limit && opts.limit < pairs.length`). -/
def applyLimit (limit : Option Nat) (pairs : List QAPair) : List QAPair :=
  match limit with
  | some l => if l ≠ 0 ∧ l < pairs.length then pairs.take l else pairs
  | none => pairs

/-- `runEval`, from the point where the benchmark pairs are loaded: errors
on an empty corpus, then writes the meta line, runs every pair in order
(appending one result line and firing one progress callback per pair), and
writes the summary line last.  Returns the run and the full event trace. -/
def runEval (env : RunEnv) (runId : String) (meta : EvalRunMeta)
    (benchPairs : List QAPair) (limit : Option Nat) (docCount : Nat) :
    Except String (EvalRun × List RunEvent) :=
  if docCount = 0 then
    .error "No documents ingested. Run `loop ingest <source>` first."
  else
    let pairs := applyLimit limit benchPairs
    let results := pairs.enum.map (fun ip => evalEntry env ip.1 ip.2)
    let summary := mkSummary results env.totalElapsed
    let trace :=
      RunEvent.writeMeta meta ::
      (pairs.enum.flatMap (fun ip =>
        [RunEvent.writeResult (evalEntry env ip.1 ip.2),
         RunEvent.progress (ip.1 + 1) pairs.length (evalEntry env ip.1 ip.2)]))
      ++ [RunEvent.writeSummary summary]
    .ok ({ id := runId, meta := meta, results := results, summary := summary }, trace)

/-! ## Run-file parsing (`parseRunFile`) -/

/-- A record of the persisted JSONL run log, as classified by
`parseRunFile`'s loop: a `meta` line, a `summary` line, or a result line. -/
inductive RunRecord where
  | meta (m : EvalRunMeta)
  | result (e : EvalResultEntry)
  | summary (s : EvalRunSummary)
deriving DecidableEq, Repr

/-- The log line produced by one event (progress callbacks write nothing). -/
def recOf : RunEvent → Option RunRecord
  | .writeMeta m => some (RunRecord.meta m)
  | .writeResult e => some (RunRecord.result e)
  | .writeSummary s => some (RunRecord.summary s)
  | .progress _ _ _ => none

/-- The persisted lines of a run, read off the event trace. -/
def fileRecords (trace : List RunEvent) : List RunRecord :=
  trace.filterMap recOf

/-- `parseRunFile` keeps a result line only when `parsed.id && parsed.question`
is truthy: both strings non-empty. -/
def keptResult (r : RunRecord) : Option EvalResultEntry :=
  match r with
  | .result e => if e.id ≠ "" ∧ e.question ≠ "" then some e else none
  | _ => none

/-- The meta record of a log line, when it is one. -/
def metaOf : RunRecord → Option EvalRunMeta
  | .meta m => some m
  | _ => none

/-- The summary record of a log line, when it is one. -/
def summaryOf : RunRecord → Option EvalRunSummary
  | .summary s => some s
  | _ => none

/-- `parseRunFile` over the (JSON-decoded) record list of one run file.
The loop keeps the *last* meta and summary record; a missing meta yields
`null`; a missing summary is recomputed from the parsed results (the
partial-run path, `elapsed` summed from the entries). -/
def parseRunFile (stem : String) (recs : List RunRecord) : Option EvalRun :=
  match (recs.filterMap metaOf).getLast? with
  | none => none
  | some m =>
    let results := recs.filterMap keptResult
    let summary :=
      match (recs.filterMap summaryOf).getLast? with
      | some s => s
      | none => mkSummary results (results.foldl (fun acc r => acc + r.elapsed) 0)
    some { id := stem, meta := m, results := results, summary := summary }

/-! ## Prompt improver (`improver.ts`) -/

/-- `TestResult` (improver re-run of a single pair). -/
structure TestResult where
  id : String
  question : String
  expectedAnswer : String
  actualAnswer : String
  pass : Bool
  reason : String
deriving DecidableEq, Repr

/-- `RegressionDetail`. -/
structure RegressionDetail where
  id : String
  question : String
  reason : String
deriving DecidableEq, Repr

/-- `Improvement`. -/
structure Improvement where
  targetDimension : String
  targetValue : String
  reflections : String
  proposedDelta : String
  beforeAccuracy : ℚ
  afterAccuracy : ℚ
  failuresBefore : Nat
  failuresAfter : Nat
  regressions : List RegressionDetail
  passTestResults : List TestResult
  failTestResults : List TestResult
deriving DecidableEq, Repr

/-- External environment of the improver: the current effective system
prompt (`getCurrentSystemPrompt`), the reflector and curator LLM responses
(already trimmed by `llmCall`), and the answer/grading services used by
`testPairs` (`queryWithPrompt` / `gradeAnswer`), either of which may throw. -/
structure ImproverEnv where
  currentPrompt : String
  reflectResp : List FailureExample → String
  curateResp : String → String → WorstDimension → String
  ask : String → String → Except String String
  grade : String → String → String → Except String GradeResult

/-- The minimal pair shape `testPairs` consumes. -/
structure TestPairInput where
  id : String
  question : String
  expectedAnswer : String
deriving DecidableEq, Repr

/-- `testPairs`: re-run each pair with the given system prompt and grade it;
a thrown error becomes a failing `TestResult` with `reason = "Error: " + msg`. -/
def testPairs (env : ImproverEnv) (pairs : List TestPairInput)
    (systemPrompt : String) : List TestResult :=
  pairs.map (fun p =>
    match env.ask systemPrompt p.question with
    | .error m =>
      { id := p.id, question := p.question, expectedAnswer := p.expectedAnswer
        actualAnswer := "", pass := false, reason := "Error: " ++ m }
    | .ok answer =>
      match env.grade p.question p.expectedAnswer answer with
      | .error m =>
        { id := p.id, question := p.question, expectedAnswer := p.expectedAnswer
          actualAnswer := "", pass := false, reason := "Error: " ++ m }
      | .ok g =>
        { id := p.id, question := p.question, expectedAnswer := p.expectedAnswer
          actualAnswer := jsTrim answer, pass := g.pass, reason := g.reason })

/-- A `FailureExample` as fed to `testPairs` in the Test stage. -/
def failureToInput (f : FailureExample) : TestPairInput :=
  { id := f.id, question := f.question, expectedAnswer := f.expectedAnswer }

/-- A passing result as fed to `testPairs` in the Regression stage. -/
def passToInput (r : EvalResultEntry) : TestPairInput :=
  { id := r.id, question := r.question, expectedAnswer := r.expectedAnswer }

/-- `suggestImprovement`: Reflect → Curate → Test → Regression-check.
Besides the `Improvement`, the result carries the effective prompt the Test
and Regression stages ran against (`currentPrompt + "\n\n" + delta`). -/
def suggestImprovement (env : ImproverEnv) (run : EvalRun) :
    Except String (Improvement × String) :=
  let allFailures := run.results.filter (fun r => !r.pass)
  if allFailures.length = 0 then
    .error "No failures found in this eval run. Nothing to improve."
  else
    match (analyzeByDimension run).worst with
    | none => .error "No failures found in this eval run. Nothing to improve."
    | some worst =>
      if worst.failures.length = 0 then
        .error "No failures found in this eval run. Nothing to improve."
      else
        let failures := worst.failures
        let passes := run.results.filter (·.pass)
        let reflections := env.reflectResp failures
        let currentPrompt := env.currentPrompt
        let proposedDelta := env.curateResp currentPrompt reflections worst
        let newPrompt := currentPrompt ++ "\n\n" ++ proposedDelta
        let failTestResults := testPairs env (failures.map failureToInput) newPrompt
        let failPassCount := (failTestResults.filter (·.pass)).length
        let passSample := passes.take (min 5 passes.length)
        let passTestResults := testPairs env (passSample.map passToInput) newPrompt
        let regressions := (passTestResults.filter (fun r => !r.pass)).map
          (fun r => ({ id := r.id, question := r.question, reason := r.reason } :
            RegressionDetail))
        .ok ({ targetDimension := worst.dimension
               targetValue := worst.value
               reflections := reflections
               proposedDelta := proposedDelta
               beforeAccuracy := worst.accuracy
               afterAccuracy :=
                 if failures.length > 0 then
                   (failPassCount : ℚ) / (failures.length : ℚ)
                 else 0
               failuresBefore := failures.length
               failuresAfter := failures.length - failPassCount
               regressions := regressions
               passTestResults := passTestResults
               failTestResults := failTestResults }, newPrompt)

/-- The new effective system prompt written by `applyImprovement`:
`currentPrompt + "\n\n" + improvement.proposedDelta` (whole-file overwrite). -/
def applyImprovementPrompt (currentPrompt : String) (improvement : Improvement) :
    String :=
  currentPrompt ++ "\n\n" ++ improvement.proposedDelta

/-! ## Judge trainer (`judge.ts`) -/

/-- `JudgeVerdict`. -/
structure JudgeVerdict where
  pass : Bool
  reason : String
deriving DecidableEq, Repr

/-- `JudgeTestDetail`. -/
structure JudgeTestDetail where
  id : String
  question : String
  humanLabel : Bool
  judgeLabel : Bool
  judgeReason : String
  agree : Bool
deriving DecidableEq, Repr

/-- `JudgeResult` (the `judgePath` constant is omitted; the artifact write is
modelled as an effect). -/
structure JudgeResult where
  judgePrompt : String
  trainCount : Nat
  testCount : Nat
  agreement : ℚ
  testDetails : List JudgeTestDetail
deriving DecidableEq, Repr

/-- External environment of `createJudge`: the random shuffle's output
(`[...results].sort(() => Math.random() - 0.5)` — some rearrangement of
`run.results`), the prompt-synthesis LLM (`generateJudgePrompt`) and the
judge LLM (`runJudge(judgePrompt, question, answer)`). -/
structure JudgeEnv where
  shuffled : List EvalResultEntry
  synth : List EvalResultEntry → String
  verdict : String → String → String → JudgeVerdict

/-- Side effects of `createJudge` (the judge artifact written to
`~/.loop/eval/judge.md`). -/
inductive JudgeEffect where
  | writeJudgeFile (content : String)
deriving DecidableEq, Repr

/-- The insufficient-examples error message. -/
def judgeMinErr (minExamples got : Nat) : String :=
  "Need at least " ++ toString minExamples ++
  " graded examples to build a judge. Got " ++ toString got ++
  ". Run a larger eval first: loop eval --benchmark custom"

/-- The 80/20 train/test split.  The split index
`Math.max(1, Math.floor(len * 0.8))` is `max 1 (4 * len / 5)` (for any
realistic `len`, `Math.floor(len * 0.8)` on IEEE doubles equals
`⌊4·len/5⌋`).  When the test set would be empty, the last train item is
moved over (`testSet.push(trainSet.pop())`); the `trainSet.pop()`-on-empty
case is unreachable once `createJudge`'s preconditions hold. -/
def judgeSplit (shuffled : List EvalResultEntry) :
    List EvalResultEntry × List EvalResultEntry :=
  let splitIdx := max 1 (4 * shuffled.length / 5)
  let trainSet := shuffled.take splitIdx
  let testSet := shuffled.drop splitIdx
  if testSet.isEmpty then (trainSet.dropLast, trainSet.getLast?.toList)
  else (trainSet, testSet)

/-- `createJudge`. -/
def createJudge (env : JudgeEnv) (run : EvalRun) (minExamples : Nat) :
    Except String JudgeResult × List JudgeEffect :=
  let results := run.results
  if results.length < minExamples then
    (.error (judgeMinErr minExamples results.length), [])
  else
    let passes := results.filter (·.pass)
    let failures := results.filter (fun r => !r.pass)
    if passes.length = 0 then
      (.error "Need at least some PASS examples to build a judge. All results are failures.", [])
    else if failures.length = 0 then
      (.error "Need at least some FAIL examples to build a judge. All results are passes.", [])
    else
      let split := judgeSplit env.shuffled
      let judgePrompt := env.synth split.1
      let testDetails := split.2.map (fun e =>
        let v := env.verdict judgePrompt e.question e.actualAnswer
        ({ id := e.id, question := e.question, humanLabel := e.pass
           judgeLabel := v.pass, judgeReason := v.reason
           agree := e.pass == v.pass } : JudgeTestDetail))
      let agreeCount := (testDetails.filter (·.agree)).length
      let agreement :=
        if testDetails.length > 0 then (agreeCount : ℚ) / (testDetails.length : ℚ)
        else 0
      (.ok { judgePrompt := judgePrompt
             trainCount := split.1.length
             testCount := split.2.length
             agreement := agreement
             testDetails := testDetails },
       [JudgeEffect.writeJudgeFile judgePrompt])

/-! ## Signal detector (`signal-detector.ts`)

The per-turn regex families (`CORRECTION_PATTERNS`, `SATISFACTION_PATTERNS`)
are external text-matching primitives here: the embedding takes, for each
family, an oracle `String → Nat` giving the number of patterns of that
family matching the turn (the code fires a signal iff that count is
positive, and derives the confidence from it).  Nothing below depends on
the oracles' values except the correction/satisfaction signals themselves. -/

/-- Signal kinds. -/
inductive SignalType where
  | correction
  | reformulation
  | satisfaction
  | followUpDepth
deriving DecidableEq, Repr

/-- `Signal`. -/
structure Signal where
  signal : SignalType
  confidence : ℚ
  turn : Nat
  detail : String
deriving DecidableEq, Repr

/-- A raw JSONL log entry (`TurnEntry`): optional fields model the absent
JS properties. -/
structure TurnEntry where
  type : String
  role : Option String
  content : Option String
  turn : Option Nat
deriving DecidableEq, Repr

/-- A collected user turn. -/
structure UserTurn where
  content : String
  turn : Nat
deriving DecidableEq, Repr

/-- The user turns of a log, in order; a missing `turn` field defaults to
`userTurns.length + 1` at the moment of insertion. -/
def userTurnsGo (k : Nat) : List TurnEntry → List UserTurn
  | [] => []
  | e :: es =>
    match e.content with
    | some c =>
      if e.type = "turn" ∧ e.role = some "user" ∧ c ≠ "" then
        { content := c, turn := e.turn.getD (k + 1) } :: userTurnsGo (k + 1) es
      else userTurnsGo k es
    | none => userTurnsGo k es

/-- Extraction of user turns (`detectSignals`'s first loop). -/
def userTurnsOf (entries : List TurnEntry) : List UserTurn :=
  userTurnsGo 0 entries

/-- ASCII word character (`\w`) after lowercasing. -/
def isWordChar (c : Char) : Bool :=
  isAlnumLower c || c = '_'

/-- Does the (lowercased) string start with one of the keywords, at a word
boundary (`/^(kw1|kw2|...)\b/i`)? -/
def startsWithKeywordWb (kws : List String) (s : String) : Bool :=
  kws.any (fun kw =>
    kw.data.isPrefixOf s.data &&
    (match s.data.drop kw.data.length with
     | [] => true
     | c :: _ => !isWordChar c))

/-- The detector's question keywords. -/
def sdQuestionKeywords : List String :=
  ["what", "who", "when", "where", "why", "how", "which", "is", "are",
   "does", "do", "can", "could", "will", "would"]

/-- `isQuestion` (signal-detector variant, with a `\b` boundary). -/
def isQuestionSD (text : String) : Bool :=
  text.data.contains '?' ||
  startsWithKeywordWb sdQuestionKeywords (jsToLower (jsTrim text))

/-- The detector's stop-word list. -/
def sdStopWords : List String :=
  ["the", "a", "an", "is", "are", "was", "were", "be", "been", "being",
   "have", "has", "had", "do", "does", "did", "will", "would", "shall",
   "should", "may", "might", "must", "can", "could", "about", "above",
   "after", "again", "all", "also", "and", "any", "because", "before",
   "between", "both", "but", "by", "came", "com", "could", "did", "does",
   "each", "for", "from", "get", "got", "had", "has", "have", "her",
   "here", "him", "his", "how", "if", "in", "into", "its", "just",
   "let", "like", "make", "many", "me", "more", "most", "much", "my",
   "new", "not", "now", "of", "on", "one", "only", "or", "other",
   "our", "out", "over", "said", "she", "so", "some", "than", "that",
   "the", "them", "then", "there", "these", "they", "this", "those",
   "through", "to", "too", "under", "up", "upon", "very", "was", "way",
   "we", "well", "were", "what", "when", "where", "which", "while",
   "who", "whom", "why", "with", "you", "your"]

/-- `significantWords`: lowercase, tokenize on `[a-z0-9]+`, keep tokens of
length > 2 that are not stop words, as an insertion-ordered set. -/
def significantWords (text : String) : List String :=
  firstDedup ((splitRuns isAlnumLower (jsToLower text).data).filter
    (fun w => w.length > 2 ∧ ¬ sdStopWords.contains w))

/-- `wordOverlap`: Jaccard similarity of two (deduplicated) word sets. -/
def wordOverlap (a b : List String) : ℚ :=
  if a.length = 0 ∨ b.length = 0 then 0
  else
    let intersection := (a.filter (fun w => b.contains w)).length
    let union := (firstDedup (a ++ b)).length
    if union = 0 then 0 else (intersection : ℚ) / (union : ℚ)

/-- JS `x.toFixed(0)` for nonnegative rationals: nearest integer, ties
away from zero. -/
def jsToFixed0 (q : ℚ) : String :=
  toString (⌊q + 1/2⌋)

/-- Correction pass: one signal per user turn matching the correction
family; confidence `min(0.5 + matchCount·0.15, 1)`. -/
def correctionSignals (fc : String → Nat) (uts : List UserTurn) : List Signal :=
  uts.filterMap (fun ut =>
    if fc ut.content > 0 then
      some { signal := .correction
             confidence := min (1/2 + (fc ut.content : ℚ) * (3/20)) 1
             turn := ut.turn
             detail := "User correction detected at turn " ++ toString ut.turn }
    else none)

/-- Satisfaction pass: same scoring over the satisfaction family. -/
def satisfactionSignals (fs : String → Nat) (uts : List UserTurn) : List Signal :=
  uts.filterMap (fun ut =>
    if fs ut.content > 0 then
      some { signal := .satisfaction
             confidence := min (1/2 + (fs ut.content : ℚ) * (3/20)) 1
             turn := ut.turn
             detail := "User satisfaction detected at turn " ++ toString ut.turn }
    else none)

/-- The reformulation signal built from a qualifying (previous, current)
question pair. -/
def mkReformSignal (prev current : UserTurn) (overlap : ℚ) : Signal :=
  { signal := .reformulation
    confidence := min (1/2 + overlap) 1
    turn := current.turn
    detail := "User reformulated question from turn " ++ toString prev.turn ++
      " at turn " ++ toString current.turn ++
      " (overlap: " ++ jsToFixed0 (overlap * 100) ++ "%)" }

/-- One look-back comparison of the reformulation pass: question `j`
against the current question, qualifying when the overlap is ≥ 0.4. -/
def reformCheck (current : UserTurn) (qts : List UserTurn) (j : Nat) :
    Option (UserTurn × ℚ) :=
  match qts.get? j with
  | none => none
  | some prev =>
    if wordOverlap (significantWords prev.content)
        (significantWords current.content) ≥ 2/5 then
      some (prev, wordOverlap (significantWords prev.content)
        (significantWords current.content))
    else none

/-- The inner look-back loop for question `i`:
`for (j = max(0, i-2); j < i; j++)`, i.e. the indices `(range i).drop (i-2)`
in increasing order, stopping at the first overlap ≥ 0.4. -/
def reformStep (qts : List UserTurn) (i : Nat) : Option Signal :=
  match qts.get? i with
  | none => none
  | some current =>
    ((((List.range i).drop (i - 2)).filterMap (reformCheck current qts)).head?).map
      (fun po => mkReformSignal po.1 current po.2)

/-- Reformulation pass over the question-shaped turns. -/
def reformSignals (qts : List UserTurn) : List Signal :=
  ((List.range qts.length).drop 1).filterMap (reformStep qts)

/-- Follow-up-depth pass: fires once when ≥ 3 user turns occurred. -/
def followUpSignals (uts : List UserTurn) : List Signal :=
  if uts.length ≥ 3 then
    match uts.getLast? with
    | some last =>
      [{ signal := .followUpDepth
         confidence := min (1/2 + ((uts.length - 2 : Nat) : ℚ) * (1/10)) 1
         turn := last.turn
         detail := toString uts.length ++ " turns — sustained engagement" }]
    | none => []
  else []

/-- `detectSignals`: the four passes, concatenated in source order. -/
def detectSignals (fc fs : String → Nat) (entries : List TurnEntry) : List Signal :=
  let uts := userTurnsOf entries
  correctionSignals fc uts ++ satisfactionSignals fs uts ++
  reformSignals (uts.filter (fun ut => isQuestionSD ut.content)) ++
  followUpSignals uts

/-! ## Chat miner (`chat-miner.ts`)

`extractCorrectedValue` (a regex capture with a fallback to the whole
message) is passed as an oracle `String → String`; no claim depends on its
output.  Sessions are given as already-read `(filename, parsed entries)`
pairs (directory listing and JSONL decoding are filesystem externals). -/

/-- Provenance tier of a mined pair. -/
inductive MinedSource where
  | chat_correction
  | chat_satisfied
  | chat_qa
deriving DecidableEq, Repr

/-- `MinedPair`. -/
structure MinedPair where
  question : String
  answer : String
  source : MinedSource
  sessionFile : String
  turnNumber : Nat
  confidence : ℚ
  correctedAnswer : Option String
deriving DecidableEq, Repr

/-- `MineResult`. -/
structure MineResult where
  pairs : List MinedPair
  sessionsScanned : Nat
  turnsScanned : Nat
  corrections : Nat
  satisfied : Nat
  regular : Nat
deriving DecidableEq, Repr

/-- The miner's question keywords (its `isQuestion` has no `\b` boundary:
a bare prefix match). -/
def minerQuestionKeywords : List String :=
  ["what", "who", "when", "where", "why", "how", "which", "is", "are",
   "does", "do", "can", "could", "will", "would", "tell", "show", "find",
   "list", "calculate", "compare"]

/-- `isQuestion` (chat-miner variant). -/
def isQuestionMiner (text : String) : Bool :=
  text.data.contains '?' ||
  minerQuestionKeywords.any (fun kw => kw.data.isPrefixOf (jsToLower (jsTrim text)).data)

/-- `normalize`: lowercase, strip every non-`[a-z0-9]` character, trim. -/
def normalize (s : String) : String :=
  jsTrim ⟨(jsToLower s).data.filter isAlnumLower⟩

/-- JS `padStart(n, "0")`. -/
def padStartZeros (n : Nat) (s : String) : String :=
  if n ≤ s.length then s else ⟨List.replicate (n - s.length) '0' ++ s.data⟩

/-- An ordered conversation turn as rebuilt by `extractPairsFromSession`. -/
structure MTurn where
  role : String
  content : String
  turn : Nat
deriving DecidableEq, Repr

/-- Build the ordered turn list: entries with `type == "turn"` and truthy
`role`/`content`, the missing `turn` defaulting to `turns.length + 1`. -/
def mTurnsGo (k : Nat) : List TurnEntry → List MTurn
  | [] => []
  | e :: es =>
    match e.role, e.content with
    | some r, some c =>
      if e.type = "turn" ∧ r ≠ "" ∧ c ≠ "" then
        { role := r, content := c, turn := e.turn.getD (k + 1) } :: mTurnsGo (k + 1) es
      else mTurnsGo k es
    | _, _ => mTurnsGo k es

/-- The ordered turns of a session log. -/
def mTurnsOf (entries : List TurnEntry) : List MTurn :=
  mTurnsGo 0 entries

/-- The loop body of `extractPairsFromSession` for index `i`: an adjacent
user→assistant pair, skipped unless the user turn is ≥ 10 chars (trimmed)
and question-shaped; classified correction / satisfied / regular. -/
def minerStep (ec : String → String) (turns : List MTurn)
    (corrTurns satTurns : List Nat) (i : Nat) : Option MinedPair :=
  match turns.get? i, turns.get? (i + 1) with
  | some u, some a =>
    if u.role = "user" ∧ a.role = "assistant" ∧
       10 ≤ (jsTrim u.content).length ∧ isQuestionMiner u.content then
      match (turns.drop (i + 2)).find? (fun t => t.role = "user") with
      | some nu =>
        if corrTurns.contains nu.turn then
          some { question := u.content, answer := a.content
                 source := .chat_correction, sessionFile := ""
                 turnNumber := u.turn, confidence := 9/10
                 correctedAnswer := some (ec nu.content) }
        else if satTurns.contains (u.turn + 1) || satTurns.contains nu.turn then
          some { question := u.content, answer := a.content
                 source := .chat_satisfied, sessionFile := ""
                 turnNumber := u.turn, confidence := 7/10
                 correctedAnswer := none }
        else
          some { question := u.content, answer := a.content
                 source := .chat_qa, sessionFile := ""
                 turnNumber := u.turn, confidence := 2/5
                 correctedAnswer := none }
      | none =>
        if satTurns.contains (u.turn + 1) then
          some { question := u.content, answer := a.content
                 source := .chat_satisfied, sessionFile := ""
                 turnNumber := u.turn, confidence := 7/10
                 correctedAnswer := none }
        else
          some { question := u.content, answer := a.content
                 source := .chat_qa, sessionFile := ""
                 turnNumber := u.turn, confidence := 2/5
                 correctedAnswer := none }
    else none
  | _, _ => none

/-- `extractPairsFromSession`. -/
def extractPairsFromSession (ec : String → String) (entries : List TurnEntry)
    (signals : List Signal) (filename : String) : List MinedPair :=
  let turns := mTurnsOf entries
  let corrTurns := (signals.filter (fun s => s.signal = .correction)).map (·.turn)
  let satTurns := (signals.filter (fun s => s.signal = .satisfaction)).map (·.turn)
  ((List.range (turns.length - 1)).filterMap
    (minerStep ec turns corrTurns satTurns)).map
    (fun p => { p with sessionFile := filename })

/-- `mineChatsForQA` over the parsed `(filename, entries)` sessions. -/
def mineChatsForQA (fc fs : String → Nat) (ec : String → String)
    (sessions : List (String × List TurnEntry)) : MineResult :=
  let allPairs := sessions.flatMap (fun se =>
    extractPairsFromSession ec se.2 (detectSignals fc fs se.2) se.1)
  { pairs := allPairs
    sessionsScanned := sessions.length
    turnsScanned := sessions.foldl
      (fun acc se => acc + (se.2.filter (fun e => e.type = "turn")).length) 0
    corrections := (allPairs.filter (fun p => p.source = .chat_correction)).length
    satisfied := (allPairs.filter (fun p => p.source = .chat_satisfied)).length
    regular := (allPairs.filter (fun p => p.source = .chat_qa)).length }

/-- `minedToQAPairs`: drop every mined pair whose normalized question is
already among the existing pairs' normalized questions, then promote the
survivors to `QAPair`s (sequential ids). -/
def minedToQAPairs (mined : List MinedPair) (existingPairs : List QAPair) :
    List QAPair :=
  let existingQuestions := existingPairs.map (fun p => normalize p.question)
  let unique := mined.filter
    (fun m => !(existingQuestions.contains (normalize m.question)))
  unique.enum.map (fun im =>
    { id := "chat-" ++ padStartZeros 3 (toString (im.1 + 1))
      question := im.2.question
      expectedAnswer :=
        match im.2.source, im.2.correctedAnswer with
        | .chat_correction, some c => if c ≠ "" then c else im.2.answer
        | _, _ => im.2.answer
      source := "chat session: " ++ im.2.sessionFile
      dimensions := { questionType := some "factual", difficulty := some "surface"
                      sourceFormat := some "cross-format", edgeCase := none }
      status := "keep" })

/-! ## Decimal rendering facts

`nextVersion` builds `"v" + String(maxNum + 1)` and benchmark files are named
`qa-pairs-v{N}.jsonl`; immutability of old version files rests on decimal
rendering being injective and round-tripping through `parseInt`. -/

/-- Fuel-free decimal digit list of a natural (most significant first);
agrees with `Nat.toDigits 10`. -/
def decRepr (n : Nat) : List Char :=
  if _h : n < 10 then [Nat.digitChar n]
  else decRepr (n / 10) ++ [Nat.digitChar (n % 10)]
termination_by n
decreasing_by
  exact Nat.div_lt_self (by omega) (by omega)

theorem decRepr_eq_small {n : Nat} (h : n < 10) :
    decRepr n = [Nat.digitChar n] := by
  conv_lhs => rw [decRepr]
  simp [h]

theorem decRepr_eq_large {n : Nat} (h : ¬ n < 10) :
    decRepr n = decRepr (n / 10) ++ [Nat.digitChar (n % 10)] := by
  conv_lhs => rw [decRepr]
  simp [h]

theorem toDigitsCore_eq_decRepr :
    ∀ (fuel n : Nat) (ds : List Char), n < fuel →
      Nat.toDigitsCore 10 fuel n ds = decRepr n ++ ds := by
  intro fuel
  induction fuel with
  | zero => intro n ds h; omega
  | succ f ih =>
    intro n ds h
    show (if n / 10 = 0 then (n % 10).digitChar :: ds
          else Nat.toDigitsCore 10 f (n / 10) ((n % 10).digitChar :: ds)) =
      decRepr n ++ ds
    by_cases h10 : n / 10 = 0
    · have hn : n < 10 := by omega
      rw [if_pos h10, decRepr_eq_small hn, Nat.mod_eq_of_lt hn]
      rfl
    · have hn : ¬ n < 10 := by omega
      have hdiv : n / 10 < n := Nat.div_lt_self (by omega) (by decide)
      have hlt : n / 10 < f := by omega
      rw [if_neg h10, ih _ _ hlt, decRepr_eq_large hn, List.append_assoc]
      rfl

theorem repr_eq_decRepr (n : Nat) : Nat.repr n = (decRepr n).asString := by
  show (Nat.toDigitsCore 10 (n + 1) n []).asString = (decRepr n).asString
  rw [toDigitsCore_eq_decRepr _ _ _ (Nat.lt_succ_self n), List.append_nil]

theorem digitChar_inj_lt10 {a b : Nat} (ha : a < 10) (hb : b < 10)
    (h : Nat.digitChar a = Nat.digitChar b) : a = b := by
  have key : ∀ x < 10, ∀ y < 10, Nat.digitChar x = Nat.digitChar y → x = y := by
    decide
  exact key a ha b hb h

theorem decRepr_ne_nil (n : Nat) : decRepr n ≠ [] := by
  by_cases h : n < 10
  · rw [decRepr_eq_small h]; simp
  · rw [decRepr_eq_large h]; simp

theorem decRepr_inj : ∀ (m n : Nat), decRepr m = decRepr n → m = n := by
  intro m
  induction m using Nat.strong_induction_on with
  | _ m ih =>
    intro n h
    by_cases hm : m < 10 <;> by_cases hn : n < 10
    · rw [decRepr_eq_small hm, decRepr_eq_small hn] at h
      simp only [List.cons.injEq, and_true] at h
      exact digitChar_inj_lt10 hm hn h
    · rw [decRepr_eq_small hm, decRepr_eq_large hn] at h
      have hlen := congrArg List.length h
      have := List.length_pos.mpr (decRepr_ne_nil (n / 10))
      simp only [List.length_cons, List.length_append, List.length_nil] at hlen
      omega
    · rw [decRepr_eq_large hm, decRepr_eq_small hn] at h
      have hlen := congrArg List.length h
      have := List.length_pos.mpr (decRepr_ne_nil (m / 10))
      simp only [List.length_cons, List.length_append, List.length_nil] at hlen
      omega
    · rw [decRepr_eq_large hm, decRepr_eq_large hn] at h
      have hparts := List.append_inj' h (by simp)
      have hdiv : m / 10 = n / 10 :=
        ih (m / 10) (Nat.div_lt_self (by omega) (by decide)) _ hparts.1
      have hmod : m % 10 = n % 10 := by
        have h2 := hparts.2
        simp only [List.cons.injEq, and_true] at h2
        exact digitChar_inj_lt10 (Nat.mod_lt _ (by decide)) (Nat.mod_lt _ (by decide)) h2
      omega

theorem natToString_inj {m n : Nat} (h : toString m = toString n) : m = n := by
  have hm : toString m = (decRepr m).asString := repr_eq_decRepr m
  have hn : toString n = (decRepr n).asString := repr_eq_decRepr n
  rw [hm, hn] at h
  exact decRepr_inj m n (congrArg String.data h)

/-- Is `c` an ASCII decimal digit? -/
def isDigitChar (c : Char) : Bool :=
  '0' ≤ c && c ≤ '9'

/-- Value of a digit list, most significant first. -/
def digitsVal (cs : List Char) : Nat :=
  cs.foldl (fun acc c => acc * 10 + (c.toNat - '0'.toNat)) 0

/-- JS `parseInt` on a char list (for the version strings at hand: parse the
maximal leading digit run, `NaN` — `none` — if it is empty). -/
def jsParseInt (cs : List Char) : Option Nat :=
  let ds := cs.takeWhile isDigitChar
  if ds.isEmpty then none else some (digitsVal ds)

theorem digitChar_isDigit : ∀ d < 10, isDigitChar (Nat.digitChar d) = true := by
  decide

theorem digitChar_val : ∀ d < 10, (Nat.digitChar d).toNat - '0'.toNat = d := by
  decide

theorem decRepr_digits (n : Nat) : ∀ c ∈ decRepr n, isDigitChar c = true := by
  induction n using Nat.strong_induction_on with
  | _ n ih =>
    intro c hc
    by_cases h : n < 10
    · rw [decRepr_eq_small h] at hc
      simp only [List.mem_singleton] at hc
      subst hc
      exact digitChar_isDigit n h
    · rw [decRepr_eq_large h] at hc
      rcases List.mem_append.mp hc with h1 | h2
      · exact ih (n / 10) (Nat.div_lt_self (by omega) (by decide)) c h1
      · simp only [List.mem_singleton] at h2
        subst h2
        exact digitChar_isDigit _ (Nat.mod_lt _ (by decide))

theorem digitsVal_append_one (cs : List Char) (c : Char) :
    digitsVal (cs ++ [c]) = digitsVal cs * 10 + (c.toNat - '0'.toNat) := by
  simp [digitsVal, List.foldl_append]

theorem digitsVal_decRepr (n : Nat) : digitsVal (decRepr n) = n := by
  induction n using Nat.strong_induction_on with
  | _ n ih =>
    by_cases h : n < 10
    · rw [decRepr_eq_small h]
      have := digitChar_val n h
      simp only [digitsVal, List.foldl_cons, List.foldl_nil]
      omega
    · rw [decRepr_eq_large h, digitsVal_append_one,
        ih (n / 10) (Nat.div_lt_self (by omega) (by decide)),
        digitChar_val _ (Nat.mod_lt _ (by decide))]
      omega

theorem jsParseInt_decRepr (n : Nat) : jsParseInt (decRepr n) = some n := by
  have hall : (decRepr n).takeWhile isDigitChar = decRepr n :=
    List.takeWhile_eq_self_iff.mpr (decRepr_digits n)
  have hne : (decRepr n).isEmpty = false := by
    cases hh : decRepr n with
    | nil => exact absurd hh (decRepr_ne_nil n)
    | cons a l => rfl
  simp only [jsParseInt, hall, hne, Bool.false_eq_true, if_false,
    digitsVal_decRepr]

theorem toString_data_eq_decRepr (n : Nat) : (toString n).data = decRepr n := by
  have : toString n = (decRepr n).asString := repr_eq_decRepr n
  rw [this]
  rfl

/-! ## Versioned benchmark store (`benchmark-version.ts`) -/

/-- `BenchmarkVersion` metadata. -/
structure BenchmarkVersion where
  version : String
  timestamp : String
  pairCount : Nat
  corpusDocCount : Nat
  systemPromptHash : String
  description : Option String
deriving DecidableEq, Repr

/-- `BenchmarkManifest`. -/
structure BenchmarkManifest where
  latest : String
  versions : List BenchmarkVersion
deriving DecidableEq, Repr

/-- The benchmark directory: file contents by path, plus the manifest
(`versions.json`, kept structured — JSON round-trip is external). -/
structure BenchStore where
  files : String → Option String
  manifest : Option BenchmarkManifest

/-- Write (create or overwrite) one file. -/
def fsWrite (files : String → Option String) (path content : String) :
    String → Option String :=
  fun q => if q = path then some content else files q

/-- `loadManifest`: missing file yields the empty manifest. -/
def loadManifest (st : BenchStore) : BenchmarkManifest :=
  st.manifest.getD { latest := "", versions := [] }

/-- JS `s.replace("v", "")`: remove the first `'v'`. -/
def removeFirstV : List Char → List Char
  | [] => []
  | c :: cs => if c = 'v' then cs else c :: removeFirstV cs

/-- `nextVersion`: `"v1"` on an empty manifest, else
`"v" + (Math.max(...parsed) + 1)`; a `parseInt` failure poisons the
maximum (`NaN`), yielding the literal `"vNaN"`. -/
def nextVersion (m : BenchmarkManifest) : String :=
  if m.versions.isEmpty then "v1"
  else
    let nums := m.versions.map (fun v => jsParseInt (removeFirstV v.version.data))
    if nums.all (·.isSome) then
      "v" ++ toString ((nums.filterMap id).foldl max 0 + 1)
    else "vNaN"

/-- Path of a versioned pairs file. -/
def versionFilePath (version : String) : String :=
  "qa-pairs-" ++ version ++ ".jsonl"

/-- Path of the `latest` alias file. -/
def latestFilePath : String := "qa-pairs.jsonl"

/-- Environment of `saveBenchmarkVersion`: clock, corpus size, system-prompt
hash and the JSON serializer for one pair. -/
structure SaveEnv where
  timestamp : String
  corpusDocCount : Nat
  systemPromptHash : String
  ser : QAPair → String

/-- Serialized content of a pairs file:
`pairs.map(JSON.stringify).join("\n") + "\n"`. -/
def pairsContent (env : SaveEnv) (pairs : List QAPair) : String :=
  String.intercalate "\n" (pairs.map env.ser) ++ "\n"

/-- `saveBenchmarkVersion`: write the new versioned file, copy it over the
`latest` alias, append the metadata to the manifest and repoint `latest`. -/
def saveBenchmarkVersion (env : SaveEnv) (st : BenchStore) (pairs : List QAPair)
    (description : Option String) : BenchStore × BenchmarkVersion :=
  let manifest := loadManifest st
  let version := nextVersion manifest
  let meta : BenchmarkVersion :=
    { version := version, timestamp := env.timestamp, pairCount := pairs.length
      corpusDocCount := env.corpusDocCount
      systemPromptHash := env.systemPromptHash, description := description }
  let files1 := fsWrite st.files (versionFilePath version) (pairsContent env pairs)
  let files2 := fsWrite files1 latestFilePath
    ((files1 (versionFilePath version)).getD "")
  ({ files := files2
     manifest := some { latest := version, versions := manifest.versions ++ [meta] } },
   meta)

/-- Well-formedness of a manifest as produced by saves: every recorded
version id is `"v" + decimal`. -/
def WFManifest (m : BenchmarkManifest) : Prop :=
  ∀ v ∈ m.versions, ∃ k : Nat, v.version = "v" ++ toString k

/-! ## Spec-side definitions and witness fixtures -/

/-- The per-pair portion of the run-log/progress trace, spelled out: for the
`i`-th result (0-based), one persisted result record immediately followed by
one `onProgress(i+1, total, entry)` callback. -/
def progressTrace : Nat → Nat → List EvalResultEntry → List RunEvent
  | _, _, [] => []
  | i, total, e :: es =>
    RunEvent.writeResult e :: RunEvent.progress (i + 1) total e ::
    progressTrace (i + 1) total es

/-- A concrete mined session for the C10 witness. -/
def w10sessions : List (String × List TurnEntry) :=
  [("s1.jsonl",
    [{ type := "turn", role := some "user",
       content := some "What is the total revenue?", turn := some 1 },
     { type := "turn", role := some "assistant",
       content := some "It is 5 million.", turn := some 2 }])]

/-- The pair the witness session mines. -/
def w10pair : MinedPair :=
  { question := "What is the total revenue?", answer := "It is 5 million."
    source := .chat_qa, sessionFile := "s1.jsonl", turnNumber := 1
    confidence := 2/5, correctedAnswer := none }

/-- Result entry used by the C5 witness run. -/
def w5entry : EvalResultEntry :=
  { id := "e1", question := "q1", expectedAnswer := "a1", actualAnswer := "a1"
    pass := true, reason := "ok", elapsed := 0
    dimensions := { questionType := none, difficulty := none
                    sourceFormat := none, edgeCase := none } }

/-- A run with 9 labeled examples. -/
def w5run : EvalRun :=
  { id := "r9"
    meta := { benchmark := "custom", version := "v1", startTime := "t"
              systemPromptHash := "h", pairCount := 9 }
    results := List.replicate 9 w5entry
    summary := { total := 9, pass := 9, fail := 0, accuracy := 1, elapsed := 0 } }

def w5env : JudgeEnv :=
  { shuffled := [], synth := fun _ => "", verdict := fun _ _ _ => ⟨true, ""⟩ }

/-- Passing entry for the C6 witness. -/
def w6pass : EvalResultEntry :=
  { id := "p", question := "q", expectedAnswer := "a", actualAnswer := "a"
    pass := true, reason := "ok", elapsed := 0
    dimensions := { questionType := none, difficulty := none
                    sourceFormat := none, edgeCase := none } }

/-- Failing entry for the C6 witness. -/
def w6fail : EvalResultEntry :=
  { id := "f", question := "q", expectedAnswer := "a", actualAnswer := "b"
    pass := false, reason := "wrong", elapsed := 0
    dimensions := { questionType := none, difficulty := none
                    sourceFormat := none, edgeCase := none } }

/-- A 10-example run (6 pass, 4 fail). -/
def w6run : EvalRun :=
  { id := "r10"
    meta := { benchmark := "custom", version := "v1", startTime := "t"
              systemPromptHash := "h", pairCount := 10 }
    results := List.replicate 6 w6pass ++ List.replicate 4 w6fail
    summary := { total := 10, pass := 6, fail := 4, accuracy := 3/5, elapsed := 0 } }

def w6env : JudgeEnv :=
  { shuffled := w6run.results, synth := fun _ => "JP"
    verdict := fun _ _ _ => ⟨true, "looks right"⟩ }

/-- The judge result the witness run produces. -/
def w6jr : JudgeResult :=
  match (createJudge w6env w6run 10).1 with
  | .ok jr => jr
  | .error _ => ⟨"", 0, 0, 0, []⟩

def w6effs : List JudgeEffect := (createJudge w6env w6run 10).2

/-- The provenance-tier confidence values asserted by the spec. -/
def confTier : MinedSource → ℚ
  | .chat_correction => 9/10
  | .chat_satisfied => 7/10
  | .chat_qa => 2/5

/-- Benchmark pair for the C4 witness. -/
def w4pair : QAPair :=
  { id := "p1", question := "What is X?", expectedAnswer := "Y", source := "s"
    dimensions := { questionType := some "factual", difficulty := none
                    sourceFormat := none, edgeCase := none }
    status := "keep" }

/-- An environment whose answer service always throws. -/
def w4env : RunEnv :=
  { outcome := fun _ _ => .err "boom", elapsedOf := fun _ => 3, totalElapsed := 7 }

def w4meta : EvalRunMeta :=
  { benchmark := "custom", version := "v1", startTime := "t"
    systemPromptHash := "h", pairCount := 1 }

/-- The run and trace the C4 witness produces. -/
def w4out : EvalRun × List RunEvent :=
  match runEval w4env "r1" w4meta [w4pair] none 1 with
  | .ok rt => rt
  | .error _ =>
    ({ id := "", meta := w4meta, results := []
       summary := { total := 0, pass := 0, fail := 0, accuracy := 0, elapsed := 0 } }, [])

/-- The spec's summary-consistency invariant, relative to a result list:
`pass + fail == total == len(results)`, `0 ≤ accuracy ≤ 1`, and
`accuracy == pass/total` (0 when `total = 0`). -/
def summaryOK (s : EvalRunSummary) (results : List EvalResultEntry) : Prop :=
  s.pass + s.fail = s.total ∧ s.total = results.length ∧
  0 ≤ s.accuracy ∧ s.accuracy ≤ 1 ∧
  s.accuracy = if s.total = 0 then (0 : ℚ) else (s.pass : ℚ) / (s.total : ℚ)

/-- Benchmark pairs for the C2 witness (one passing, one failing). -/
def w2pairs : List QAPair :=
  [{ id := "q1", question := "What is A?", expectedAnswer := "1", source := "s"
     dimensions := { questionType := some "factual", difficulty := none
                     sourceFormat := none, edgeCase := none }
     status := "keep" },
   { id := "q2", question := "What is B?", expectedAnswer := "2", source := "s"
     dimensions := { questionType := some "numerical", difficulty := none
                     sourceFormat := none, edgeCase := none }
     status := "keep" }]

def w2env : RunEnv :=
  { outcome := fun i _ =>
      if i = 0 then .ok "1" ⟨true, "match"⟩ else .ok "3" ⟨false, "mismatch"⟩
    elapsedOf := fun _ => 1, totalElapsed := 2 }

def w2meta : EvalRunMeta :=
  { benchmark := "custom", version := "v1", startTime := "t"
    systemPromptHash := "h", pairCount := 2 }

/-- The run and trace of the C2 witness. -/
def w2out : EvalRun × List RunEvent :=
  match runEval w2env "r2" w2meta w2pairs none 1 with
  | .ok rt => rt
  | .error _ =>
    ({ id := "", meta := w2meta, results := []
       summary := { total := 0, pass := 0, fail := 0, accuracy := 0, elapsed := 0 } }, [])

/-- The run reconstructed from a truncated (meta + first result only)
version of the witness's persisted log. -/
def w2rec : EvalRun :=
  match parseRunFile "r2" ((fileRecords w2out.2).take 2) with
  | some r => r
  | none =>
    { id := "", meta := w2meta, results := []
      summary := { total := 0, pass := 0, fail := 0, accuracy := 0, elapsed := 0 } }

/-- C2 counterexample: a benchmark pair whose question is the empty string. -/
def c2xPair : QAPair :=
  { id := "p1", question := "", expectedAnswer := "42", source := "s"
    dimensions := { questionType := some "factual", difficulty := none
                    sourceFormat := none, edgeCase := none }
    status := "keep" }

def c2xEnv : RunEnv :=
  { outcome := fun _ _ => .err "boom", elapsedOf := fun _ => 1, totalElapsed := 1 }

def c2xMeta : EvalRunMeta :=
  { benchmark := "custom", version := "v1", startTime := "t"
    systemPromptHash := "h", pairCount := 1 }

/-- The full persisted trace of the counterexample run. -/
def c2xTrace : List RunEvent :=
  match runEval c2xEnv "rx" c2xMeta [c2xPair] none 1 with
  | .ok rt => rt.2
  | .error _ => []

/-- The four dimension tables of an analysis, in `findWorst`'s iteration
order. -/
def analysisDims (a : DimensionAnalysis) :
    List (String × List (String × DimensionSlice)) :=
  [("questionType", a.byQuestionType), ("difficulty", a.byDifficulty),
   ("sourceFormat", a.bySourceFormat), ("edgeCase", a.byEdgeCase)]

/-- C3 counterexample: an all-fail run whose single result carries no
dimension tags at all. -/
def c3xRun : EvalRun :=
  { id := "rc3"
    meta := { benchmark := "custom", version := "v1", startTime := "t"
              systemPromptHash := "h", pairCount := 1 }
    results := [{ id := "e1", question := "q", expectedAnswer := "a"
                  actualAnswer := "b", pass := false, reason := "wrong"
                  elapsed := 0
                  dimensions := { questionType := none, difficulty := none
                                  sourceFormat := none, edgeCase := none } }]
    summary := { total := 1, pass := 0, fail := 1, accuracy := 0, elapsed := 0 } }

/-- C3 witness: an all-fail run with two tagged results. -/
def w3run : EvalRun :=
  { id := "rw3"
    meta := { benchmark := "custom", version := "v1", startTime := "t"
              systemPromptHash := "h", pairCount := 2 }
    results := [{ id := "e1", question := "q1", expectedAnswer := "a1"
                  actualAnswer := "b1", pass := false, reason := "wrong"
                  elapsed := 0
                  dimensions := { questionType := some "calculation"
                                  difficulty := none, sourceFormat := none
                                  edgeCase := none } },
                { id := "e2", question := "q2", expectedAnswer := "a2"
                  actualAnswer := "b2", pass := false, reason := "wrong"
                  elapsed := 0
                  dimensions := { questionType := some "factual"
                                  difficulty := none, sourceFormat := none
                                  edgeCase := none } }]
    summary := { total := 2, pass := 0, fail := 2, accuracy := 0, elapsed := 0 } }

/-- C7 fixture questions: the third question overlaps the first at exactly
0.4 and repeats the second verbatim (overlap 1). -/
def c7xQ0 : UserTurn := { content := "what is alpha beta foo?", turn := 1 }

def c7xQ1 : UserTurn := { content := "what is alpha beta bar baz?", turn := 2 }

def c7xQ2 : UserTurn := { content := "what is alpha beta bar baz?", turn := 3 }

def c7xQts : List UserTurn := [c7xQ0, c7xQ1, c7xQ2]

/-- The C7 fixture transcript: three question-shaped user turns. -/
def c7xEntries : List TurnEntry :=
  [{ type := "turn", role := some "user", content := some c7xQ0.content
     turn := some 1 },
   { type := "turn", role := some "assistant", content := some "Answer one."
     turn := some 2 },
   { type := "turn", role := some "user", content := some c7xQ1.content
     turn := some 2 },
   { type := "turn", role := some "assistant", content := some "Answer two."
     turn := some 3 },
   { type := "turn", role := some "user", content := some c7xQ2.content
     turn := some 3 }]

/-- C1 fixture run: a single failing, tagged result. -/
def c1xRun : EvalRun :=
  { id := "rc1"
    meta := { benchmark := "custom", version := "v1", startTime := "t"
              systemPromptHash := "h", pairCount := 1 }
    results := [{ id := "e1", question := "What is the fee?", expectedAnswer := "5"
                  actualAnswer := "7", pass := false, reason := "wrong number"
                  elapsed := 0
                  dimensions := { questionType := some "factual", difficulty := none
                                  sourceFormat := none, edgeCase := none } }]
    summary := { total := 1, pass := 0, fail := 1, accuracy := 0, elapsed := 0 } }

/-- C1 fixture environment: the curator LLM answers with a delta longer
than the whole current prompt; no caller check rejects it. -/
def c1xEnv : ImproverEnv :=
  { currentPrompt := "p"
    reflectResp := fun _ => "root cause"
    curateResp := fun _ _ _ => "this delta is long"
    ask := fun _ _ => .ok "answer"
    grade := fun _ _ _ => .ok ⟨true, "ok"⟩ }

/-- The improvement the C1 fixture produces. -/
def c1xOut : Improvement × String :=
  match suggestImprovement c1xEnv c1xRun with
  | .ok x => x
  | .error _ =>
    ({ targetDimension := "", targetValue := "", reflections := ""
       proposedDelta := "", beforeAccuracy := 0, afterAccuracy := 0
       failuresBefore := 0, failuresAfter := 0, regressions := []
       passTestResults := [], failTestResults := [] }, "")

/-- C9 fixture: the stored metadata of version v1. -/
def w9meta1 : BenchmarkVersion :=
  { version := "v1", timestamp := "t1", pairCount := 0, corpusDocCount := 0
    systemPromptHash := "h", description := none }

/-- C9 fixture store: version v1 exists with known bytes. -/
def w9st : BenchStore :=
  { files := fun q => if q = versionFilePath "v1" then some "OLD" else none
    manifest := some { latest := "v1", versions := [w9meta1] } }

def w9env : SaveEnv :=
  { timestamp := "t2", corpusDocCount := 3, systemPromptHash := "h2"
    ser := fun _ => "\x7b\x7d" }

/-- The result of saving a new (empty) version on the fixture store. -/
def w9out : BenchStore × BenchmarkVersion :=
  saveBenchmarkVersion w9env w9st [] none

/-! ## Theorems -/


theorem minerStep_confidence {ec : String → String} {turns : List MTurn}
    {ct st : List Nat} {i : Nat} {p : MinedPair}
    (h : minerStep ec turns ct st i = some p) :
    p.confidence = confTier p.source := by
  unfold minerStep at h
  repeat' split at h
  all_goals try exact Option.noConfusion h
  all_goals (injection h with h'; subst h'; rfl)

theorem extractPairs_confidence {ec : String → String} {entries : List TurnEntry}
    {signals : List Signal} {fn : String} {p : MinedPair}
    (hp : p ∈ extractPairsFromSession ec entries signals fn) :
    p.confidence = confTier p.source := by
  unfold extractPairsFromSession at hp
  rcases List.mem_map.mp hp with ⟨q, hq, rfl⟩
  rcases List.mem_filterMap.mp hq with ⟨i, _, hstep⟩
  simpa using minerStep_confidence hstep

/-- **C10**: every pair mined by `mineChatsForQA` carries the confidence
determined by its provenance tier — 0.9 for `chat_correction`, 0.7 for
`chat_satisfied`, 0.4 for `chat_qa` — and the tiers are strictly ordered. -/
theorem c10_mined_confidence_tiers (fc fs : String → Nat) (ec : String → String)
    (sessions : List (String × List TurnEntry)) :
    (∀ p ∈ (mineChatsForQA fc fs ec sessions).pairs,
        p.confidence = confTier p.source) ∧
    confTier .chat_satisfied < confTier .chat_correction ∧
    confTier .chat_qa < confTier .chat_satisfied := by
  refine ⟨?_, by norm_num [confTier], by norm_num [confTier]⟩
  intro p hp
  unfold mineChatsForQA at hp
  simp only at hp
  rcases List.mem_flatMap.mp hp with ⟨se, _, hmem⟩
  exact extractPairs_confidence hmem


theorem c10_witness :
    w10pair ∈ (mineChatsForQA (fun _ => 0) (fun _ => 0) id w10sessions).pairs ∧
    w10pair.confidence = confTier w10pair.source := by
  have hmem : w10pair ∈ (mineChatsForQA (fun _ => 0) (fun _ => 0) id w10sessions).pairs := by
    have : (mineChatsForQA (fun _ => 0) (fun _ => 0) id w10sessions).pairs = [w10pair] := by
      rfl
    rw [this]
    exact List.mem_singleton.mpr rfl
  exact ⟨hmem,
    (c10_mined_confidence_tiers (fun _ => 0) (fun _ => 0) id w10sessions).1 w10pair hmem⟩

/-! ### C8: dedup idempotence -/

theorem minedToQAPairs_questions (mined : List MinedPair) (existing : List QAPair) :
    (minedToQAPairs mined existing).map (fun p => p.question) =
      (mined.filter (fun m =>
        !((existing.map (fun p => normalize p.question)).contains
          (normalize m.question)))).map (fun m => m.question) := by
  unfold minedToQAPairs
  simp only [List.map_map]
  have : ((fun p : QAPair => p.question) ∘
      (fun im : Nat × MinedPair =>
        ({ id := "chat-" ++ padStartZeros 3 (toString (im.1 + 1))
           question := im.2.question
           expectedAnswer :=
             match im.2.source, im.2.correctedAnswer with
             | .chat_correction, some c => if c ≠ "" then c else im.2.answer
             | _, _ => im.2.answer
           source := "chat session: " ++ im.2.sessionFile
           dimensions := { questionType := some "factual", difficulty := some "surface"
                           sourceFormat := some "cross-format", edgeCase := none }
           status := "keep" } : QAPair))) =
      ((fun m : MinedPair => m.question) ∘ Prod.snd) := by
    funext im
    rfl
  rw [this, ← List.map_map, List.enum_map_snd]

theorem minedToQAPairs_dedup_idem (mined : List MinedPair) (existing : List QAPair) :
    minedToQAPairs mined (existing ++ minedToQAPairs mined existing) = [] := by
  have hmem : ∀ s : String, ∀ l : List String, l.contains s = true ↔ s ∈ l := by
    intro s l
    simp [List.contains]
  have hfilter : mined.filter (fun m =>
      !(((existing ++ minedToQAPairs mined existing).map
          (fun p => normalize p.question)).contains (normalize m.question))) = [] := by
    rw [List.filter_eq_nil_iff]
    intro m hm
    simp only [Bool.not_eq_true', Bool.not_eq_false]
    rw [hmem]
    rw [List.map_append]
    by_cases hex : normalize m.question ∈ existing.map (fun p => normalize p.question)
    · exact List.mem_append_left _ hex
    · refine List.mem_append_right _ ?_
      have hkept : m ∈ mined.filter (fun m =>
          !((existing.map (fun p => normalize p.question)).contains
            (normalize m.question))) := by
        rw [List.mem_filter]
        refine ⟨hm, ?_⟩
        rw [Bool.not_eq_true']
        rw [← Bool.not_eq_true, hmem]
        exact hex
      have hq : m.question ∈ (minedToQAPairs mined existing).map (fun p => p.question) := by
        rw [minedToQAPairs_questions]
        exact List.mem_map_of_mem _ hkept
      rcases List.mem_map.mp hq with ⟨p, hp, hpq⟩
      rw [List.mem_map]
      exact ⟨p, hp, by rw [hpq]⟩
  conv_lhs => rw [minedToQAPairs]
  rw [hfilter]
  rfl

/-- **C8**: mining the same transcripts a second time, after the first
mine's promoted pairs have been appended to the benchmark, yields zero new
QA pairs — `minedToQAPairs` drops every mined pair whose normalized question
already occurs among the existing pairs' questions. -/
theorem c8_dedup_idempotent (fc fs : String → Nat) (ec : String → String)
    (sessions : List (String × List TurnEntry)) (existing : List QAPair) :
    minedToQAPairs (mineChatsForQA fc fs ec sessions).pairs
      (existing ++
        minedToQAPairs (mineChatsForQA fc fs ec sessions).pairs existing) = [] :=
  minedToQAPairs_dedup_idem (mineChatsForQA fc fs ec sessions).pairs existing

/-! ### C5 / C6: judge trainer -/

theorem judgeSplit_counts {s : List EvalResultEntry} (hne : s ≠ []) :
    (judgeSplit s).1.length + (judgeSplit s).2.length = s.length ∧
    1 ≤ (judgeSplit s).2.length := by
  have hlen : 1 ≤ s.length := by
    cases s with
    | nil => exact absurd rfl hne
    | cons a l => simp
  have hidx : max 1 (4 * s.length / 5) ≤ s.length := by omega
  unfold judgeSplit
  by_cases hemp : (s.drop (max 1 (4 * s.length / 5))).isEmpty
  · rw [if_pos hemp]
    have hdrop : s.length - max 1 (4 * s.length / 5) = 0 := by
      have := List.isEmpty_iff.mp hemp
      have := congrArg List.length this
      simpa [List.length_drop] using this
    have htake : s.take (max 1 (4 * s.length / 5)) = s :=
      List.take_of_length_le (by omega)
    rw [htake]
    have hlast : s.getLast?.toList.length = 1 := by
      have h2 := List.getLast?_isSome.mpr hne
      rcases hx : s.getLast? with _ | x
      · rw [hx] at h2; simp at h2
      · simp
    constructor
    · simp only [List.length_dropLast, hlast]
      omega
    · simp only [hlast]
      omega
  · rw [if_neg hemp]
    have hdrop : 1 ≤ s.length - max 1 (4 * s.length / 5) := by
      have hne2 := List.isEmpty_eq_false.mp (Bool.not_eq_true _ ▸ hemp)
      cases hd : s.drop (max 1 (4 * s.length / 5)) with
      | nil => exact absurd hd hne2
      | cons a l =>
        have := congrArg List.length hd
        simp only [List.length_drop, List.length_cons] at this
        omega
    constructor
    · simp only [List.length_take, List.length_drop]
      omega
    · simp only [List.length_drop]
      omega

/-- **C5**: `createJudge` fails fatally, with no judge artifact written and
no prompt synthesized, whenever there are fewer than `minExamples` results
or the results lack a passing or a failing entry; with too few examples the
error message mentions "at least `minExamples`". -/
theorem c5_createJudge_preconditions (env : JudgeEnv) (run : EvalRun) (minEx : Nat)
    (h : run.results.length < minEx ∨
         (run.results.filter (·.pass)).length = 0 ∨
         (run.results.filter (fun r => !r.pass)).length = 0) :
    ((createJudge env run minEx).2 = [] ∧
     ∃ msg, (createJudge env run minEx).1 = .error msg) ∧
    (run.results.length < minEx →
      createJudge env run minEx = (.error (judgeMinErr minEx run.results.length), []) ∧
      ∃ pre post, judgeMinErr minEx run.results.length =
        pre ++ ("at least " ++ toString minEx) ++ post) := by
  have hmsg : ∃ pre post, judgeMinErr minEx run.results.length =
      pre ++ ("at least " ++ toString minEx) ++ post := by
    refine ⟨"Need ", " graded examples to build a judge. Got " ++
      toString run.results.length ++
      ". Run a larger eval first: loop eval --benchmark custom", ?_⟩
    unfold judgeMinErr
    simp only [String.append_assoc]
    rfl
  by_cases h1 : run.results.length < minEx
  · have hc : createJudge env run minEx =
        (.error (judgeMinErr minEx run.results.length), []) := by
      unfold createJudge
      rw [if_pos h1]
    exact ⟨⟨by rw [hc], ⟨_, by rw [hc]⟩⟩, fun _ => ⟨hc, hmsg⟩⟩
  · have h23 : (run.results.filter (·.pass)).length = 0 ∨
        (run.results.filter (fun r => !r.pass)).length = 0 := by
      rcases h with h | h | h
      · exact absurd h h1
      · exact Or.inl h
      · exact Or.inr h
    rcases h23 with h2 | h3
    · have hc : createJudge env run minEx =
          (.error "Need at least some PASS examples to build a judge. All results are failures.", []) := by
        unfold createJudge
        rw [if_neg h1, if_pos h2]
      exact ⟨⟨by rw [hc], ⟨_, by rw [hc]⟩⟩, fun hlt => absurd hlt h1⟩
    · by_cases h2 : (run.results.filter (·.pass)).length = 0
      · have hc : createJudge env run minEx =
            (.error "Need at least some PASS examples to build a judge. All results are failures.", []) := by
          unfold createJudge
          rw [if_neg h1, if_pos h2]
        exact ⟨⟨by rw [hc], ⟨_, by rw [hc]⟩⟩, fun hlt => absurd hlt h1⟩
      · have hc : createJudge env run minEx =
            (.error "Need at least some FAIL examples to build a judge. All results are passes.", []) := by
          unfold createJudge
          rw [if_neg h1, if_neg h2, if_pos h3]
        exact ⟨⟨by rw [hc], ⟨_, by rw [hc]⟩⟩, fun hlt => absurd hlt h1⟩


theorem c5_witness :
    w5run.results.length < 10 ∧ toString (10 : Nat) = "10" ∧
    (((createJudge w5env w5run 10).2 = [] ∧
      ∃ msg, (createJudge w5env w5run 10).1 = .error msg) ∧
     (w5run.results.length < 10 →
       createJudge w5env w5run 10 = (.error (judgeMinErr 10 w5run.results.length), []) ∧
       ∃ pre post, judgeMinErr 10 w5run.results.length =
         pre ++ ("at least " ++ toString 10) ++ post)) :=
  ⟨by decide, by decide,
    c5_createJudge_preconditions w5env w5run 10 (Or.inl (by decide))⟩

/-- **C6**: a successful `createJudge` splits the examples with
`trainCount + testCount = resultsUsed`, `testCount ≥ 1`, and reports an
agreement in `[0,1]` equal to the fraction of held-out test examples on
which the judge's verdict matches the ground-truth pass label. -/
theorem c6_judge_split_invariants (env : JudgeEnv) (run : EvalRun) (minEx : Nat)
    (jr : JudgeResult) (effs : List JudgeEffect)
    (hlen : env.shuffled.length = run.results.length)
    (h : createJudge env run minEx = (.ok jr, effs)) :
    jr.trainCount + jr.testCount = run.results.length ∧
    1 ≤ jr.testCount ∧
    0 ≤ jr.agreement ∧ jr.agreement ≤ 1 ∧
    jr.testCount = jr.testDetails.length ∧
    jr.agreement = ((jr.testDetails.filter
        (fun d => d.humanLabel == d.judgeLabel)).length : ℚ) / (jr.testCount : ℚ) ∧
    ∀ d ∈ jr.testDetails, d.agree = (d.humanLabel == d.judgeLabel) := by
  unfold createJudge at h
  simp only [] at h
  by_cases h1 : run.results.length < minEx
  · rw [if_pos h1] at h
    exact absurd h (by simp)
  rw [if_neg h1] at h
  by_cases h2 : (run.results.filter (fun x => x.pass)).length = 0
  · rw [if_pos h2] at h
    exact absurd h (by simp)
  rw [if_neg h2] at h
  by_cases h3 : (run.results.filter (fun r => !r.pass)).length = 0
  · rw [if_pos h3] at h
    exact absurd h (by simp)
  rw [if_neg h3] at h
  have hne : env.shuffled ≠ [] := by
    have hp : 1 ≤ (run.results.filter (fun x => x.pass)).length :=
      Nat.one_le_iff_ne_zero.mpr h2
    have hr : (run.results.filter (fun x => x.pass)).length ≤ run.results.length :=
      List.length_filter_le _ _
    intro hnil
    rw [hnil] at hlen
    simp only [List.length_nil] at hlen
    omega
  obtain ⟨hsum, htest⟩ := judgeSplit_counts hne
  injection h with hOk hEff
  injection hOk with hRec
  subst hRec
  simp only []
  set S := judgeSplit env.shuffled with hS
  set details := S.2.map (fun e =>
    let v := env.verdict (env.synth S.1) e.question e.actualAnswer
    ({ id := e.id, question := e.question, humanLabel := e.pass
       judgeLabel := v.pass, judgeReason := v.reason
       agree := e.pass == v.pass } : JudgeTestDetail)) with hdetails
  have hdlen : details.length = S.2.length := by
    rw [hdetails, List.length_map]
  have hagree : ∀ d ∈ details, d.agree = (d.humanLabel == d.judgeLabel) := by
    intro d hd
    rw [hdetails] at hd
    rcases List.mem_map.mp hd with ⟨e, _, he⟩
    subst he
    rfl
  have hpos : 0 < details.length := by omega
  have hif : (if details.length > 0 then
      ((details.filter (fun d => d.agree)).length : ℚ) / (details.length : ℚ)
      else 0) =
      ((details.filter (fun d => d.agree)).length : ℚ) / (details.length : ℚ) :=
    if_pos hpos
  refine ⟨by omega, by omega, ?_, ?_, by omega, ?_, hagree⟩
  · rw [hif]
    positivity
  · rw [hif]
    rw [div_le_one (by exact_mod_cast hpos)]
    exact_mod_cast List.length_filter_le _ _
  · rw [hif]
    have hfc : details.filter (fun d => d.agree) =
        details.filter (fun d => d.humanLabel == d.judgeLabel) :=
      List.filter_congr (fun d hd => by rw [hagree d hd])
    rw [hfc, hdlen]


theorem c6_witness :
    w6env.shuffled.length = w6run.results.length ∧
    createJudge w6env w6run 10 = (.ok w6jr, w6effs) ∧
    (w6jr.trainCount + w6jr.testCount = w6run.results.length ∧
     1 ≤ w6jr.testCount ∧
     0 ≤ w6jr.agreement ∧ w6jr.agreement ≤ 1 ∧
     w6jr.testCount = w6jr.testDetails.length ∧
     w6jr.agreement = ((w6jr.testDetails.filter
         (fun d => d.humanLabel == d.judgeLabel)).length : ℚ) / (w6jr.testCount : ℚ) ∧
     ∀ d ∈ w6jr.testDetails, d.agree = (d.humanLabel == d.judgeLabel)) :=
  ⟨rfl, rfl, c6_judge_split_invariants w6env w6run 10 w6jr w6effs rfl rfl⟩

/-! ### C4: run-log ordering and per-pair error capture -/

theorem interleave_eq_progressTrace (env : RunEnv) (T : Nat) :
    ∀ (l : List QAPair) (n : Nat),
      (List.enumFrom n l).flatMap (fun ip =>
        [RunEvent.writeResult (evalEntry env ip.1 ip.2),
         RunEvent.progress (ip.1 + 1) T (evalEntry env ip.1 ip.2)]) =
      progressTrace n T
        ((List.enumFrom n l).map (fun ip => evalEntry env ip.1 ip.2)) := by
  intro l
  induction l with
  | nil => intro n; rfl
  | cons p l ih =>
    intro n
    rw [List.enumFrom_cons]
    simp only [List.flatMap_cons, List.map_cons]
    rw [ih (n + 1)]
    rfl

/-- **C4**: every per-pair failure is captured as a failing result with
`reason = "Error: " + message` instead of aborting; the run log is written
in the order meta record first, one result record immediately after each
pair with `onProgress(done, total, entry)` fired after it (`done` = count of
completed pairs), summary record last. -/
theorem c4_runEval_trace (env : RunEnv) (runId : String) (meta : EvalRunMeta)
    (benchPairs : List QAPair) (limit : Option Nat) (docCount : Nat)
    (run : EvalRun) (trace : List RunEvent)
    (h : runEval env runId meta benchPairs limit docCount = .ok (run, trace)) :
    trace = RunEvent.writeMeta run.meta ::
      (progressTrace 0 run.results.length run.results ++
       [RunEvent.writeSummary run.summary]) ∧
    run.meta = meta ∧
    run.results.length = (applyLimit limit benchPairs).length ∧
    (∀ i pair msg, (applyLimit limit benchPairs)[i]? = some pair →
      env.outcome i pair = .err msg →
      run.results[i]? = some
        { id := pair.id, question := pair.question
          expectedAnswer := pair.expectedAnswer, actualAnswer := ""
          pass := false, reason := "Error: " ++ msg
          elapsed := env.elapsedOf i, dimensions := pair.dimensions }) := by
  unfold runEval at h
  by_cases hd : docCount = 0
  · rw [if_pos hd] at h
    exact absurd h (by simp)
  rw [if_neg hd] at h
  simp only [] at h
  injection h with hpair
  injection hpair with hrun htrace
  subst hrun
  subst htrace
  refine ⟨?_, rfl, by simp, ?_⟩
  · simp only [List.length_map, List.enum_length]
    rw [show (applyLimit limit benchPairs).enum =
        List.enumFrom 0 (applyLimit limit benchPairs) from rfl,
      interleave_eq_progressTrace]
    simp [List.cons_append]
  · intro i pair msg hget hout
    simp only [List.getElem?_map, List.getElem?_enum, hget, Option.map_some']
    unfold evalEntry
    rw [hout]

theorem c4_witness :
    runEval w4env "r1" w4meta [w4pair] none 1 = .ok w4out ∧
    w4out.2 = RunEvent.writeMeta w4out.1.meta ::
      (progressTrace 0 w4out.1.results.length w4out.1.results ++
       [RunEvent.writeSummary w4out.1.summary]) ∧
    w4out.1.meta = w4meta ∧
    (w4out.1.results)[0]? = some
      { id := w4pair.id, question := w4pair.question
        expectedAnswer := w4pair.expectedAnswer, actualAnswer := ""
        pass := false, reason := "Error: " ++ "boom"
        elapsed := w4env.elapsedOf 0, dimensions := w4pair.dimensions } := by
  have hok : runEval w4env "r1" w4meta [w4pair] none 1 = .ok w4out := rfl
  have H := c4_runEval_trace w4env "r1" w4meta [w4pair] none 1 w4out.1 w4out.2 hok
  exact ⟨hok, H.1, H.2.1, H.2.2.2 0 w4pair "boom" rfl rfl⟩

/-! ### C2: summary consistency -/

theorem mkSummary_ok (rs : List EvalResultEntry) (t : Nat) :
    summaryOK (mkSummary rs t) rs := by
  have hple : (rs.filter (·.pass)).length ≤ rs.length := List.length_filter_le _ _
  by_cases hz : rs.length = 0
  · have hp0 : (rs.filter (·.pass)).length = 0 := by omega
    unfold summaryOK mkSummary
    simp [hz, hp0]
  · have hpos : 0 < rs.length := Nat.pos_of_ne_zero hz
    unfold summaryOK mkSummary
    simp only [gt_iff_lt, hpos, hz, if_true, if_false, eq_self_iff_true,
      true_and, and_true]
    refine ⟨by omega, by positivity, ?_⟩
    rw [div_le_one (by exact_mod_cast hpos)]
    exact_mod_cast hple

theorem evalEntry_fields (env : RunEnv) (i : Nat) (p : QAPair) :
    (evalEntry env i p).id = p.id ∧ (evalEntry env i p).question = p.question := by
  unfold evalEntry
  split <;> exact ⟨rfl, rfl⟩

theorem recOf_interleave (env : RunEnv) (T : Nat) :
    ∀ (l : List (Nat × QAPair)),
      (l.flatMap (fun ip =>
        [RunEvent.writeResult (evalEntry env ip.1 ip.2),
         RunEvent.progress (ip.1 + 1) T (evalEntry env ip.1 ip.2)])).filterMap recOf =
      l.map (fun ip => RunRecord.result (evalEntry env ip.1 ip.2)) := by
  intro l
  induction l with
  | nil => rfl
  | cons ip l ih =>
    simp only [List.flatMap_cons, List.filterMap_append, List.map_cons]
    rw [ih]
    rfl

theorem runEval_ok_spec (env : RunEnv) (runId : String) (meta : EvalRunMeta)
    (benchPairs : List QAPair) (limit : Option Nat) (docCount : Nat)
    (run : EvalRun) (trace : List RunEvent)
    (h : runEval env runId meta benchPairs limit docCount = .ok (run, trace)) :
    run.summary = mkSummary run.results env.totalElapsed ∧
    fileRecords trace = RunRecord.meta run.meta ::
      (run.results.map RunRecord.result ++ [RunRecord.summary run.summary]) ∧
    (∀ e ∈ run.results, ∃ p ∈ applyLimit limit benchPairs,
      e.id = p.id ∧ e.question = p.question) := by
  unfold runEval at h
  by_cases hd : docCount = 0
  · rw [if_pos hd] at h
    exact absurd h (by simp)
  rw [if_neg hd] at h
  simp only [] at h
  injection h with hpair
  injection hpair with hrun htrace
  subst hrun
  subst htrace
  refine ⟨rfl, ?_, ?_⟩
  · unfold fileRecords
    simp only [List.cons_append, List.filterMap_cons, List.filterMap_append]
    rw [recOf_interleave, List.map_map]
    rfl
  · intro e he
    simp only [List.mem_map] at he
    rcases he with ⟨ip, hip, rfl⟩
    have hm := List.mem_enum hip
    refine ⟨ip.2, ?_, (evalEntry_fields env ip.1 ip.2).1,
      (evalEntry_fields env ip.1 ip.2).2⟩
    rw [hm.2]
    exact List.getElem_mem hm.1

theorem filterMap_metaOf_results (l : List EvalResultEntry) :
    (l.map RunRecord.result).filterMap metaOf = [] := by
  rw [List.filterMap_map]
  exact List.filterMap_eq_nil_iff.mpr (fun a _ => rfl)

theorem filterMap_summaryOf_results (l : List EvalResultEntry) :
    (l.map RunRecord.result).filterMap summaryOf = [] := by
  rw [List.filterMap_map]
  exact List.filterMap_eq_nil_iff.mpr (fun a _ => rfl)

theorem filterMap_keptResult_results (l : List EvalResultEntry)
    (h : ∀ e ∈ l, e.id ≠ "" ∧ e.question ≠ "") :
    (l.map RunRecord.result).filterMap keptResult = l := by
  induction l with
  | nil => rfl
  | cons e l ih =>
    have he := h e (List.mem_cons_self e l)
    have hstep : keptResult (RunRecord.result e) = some e := by
      show (if e.id ≠ "" ∧ e.question ≠ "" then some e else none) = some e
      rw [if_pos he]
    rw [List.map_cons, List.filterMap_cons, hstep]
    simp only []
    rw [ih (fun e' he' => h e' (List.mem_cons_of_mem e he'))]

theorem parse_take_ok (m : EvalRunMeta) (s : EvalRunSummary)
    (rs : List EvalResultEntry) (stem : String)
    (hids : ∀ e ∈ rs, e.id ≠ "" ∧ e.question ≠ "")
    (hs : summaryOK s rs) :
    ∀ k run', 1 ≤ k →
      parseRunFile stem ((RunRecord.meta m ::
        (rs.map RunRecord.result ++ [RunRecord.summary s])).take k) = some run' →
      summaryOK run'.summary run'.results := by
  intro k run' hk hp
  obtain ⟨t, rfl⟩ : ∃ t, k = t + 1 := ⟨k - 1, by omega⟩
  rw [List.take_succ_cons] at hp
  by_cases hle : t ≤ rs.length
  · rw [List.take_append_eq_append_take] at hp
    have h0 : t - (rs.map RunRecord.result).length = 0 := by
      rw [List.length_map]
      omega
    rw [h0, List.take_zero, List.append_nil, ← List.map_take] at hp
    have hkept : ∀ e ∈ rs.take t, e.id ≠ "" ∧ e.question ≠ "" :=
      fun e he => hids e (List.mem_of_mem_take he)
    unfold parseRunFile at hp
    rw [List.filterMap_cons_some (show metaOf (RunRecord.meta m) = some m from rfl),
      filterMap_metaOf_results,
      List.filterMap_cons_none (show summaryOf (RunRecord.meta m) = none from rfl),
      filterMap_summaryOf_results,
      List.filterMap_cons_none (show keptResult (RunRecord.meta m) = none from rfl),
      filterMap_keptResult_results _ hkept] at hp
    simp only [List.getLast?_singleton, List.getLast?_nil] at hp
    injection hp with hp
    subst hp
    exact mkSummary_ok _ _
  · have hlen : (rs.map RunRecord.result ++ [RunRecord.summary s]).length ≤ t := by
      simp only [List.length_append, List.length_map, List.length_singleton]
      omega
    rw [List.take_of_length_le hlen] at hp
    unfold parseRunFile at hp
    rw [List.filterMap_cons_some (show metaOf (RunRecord.meta m) = some m from rfl),
      List.filterMap_append, filterMap_metaOf_results,
      show (([RunRecord.summary s]).filterMap metaOf) = [] from rfl,
      List.filterMap_cons_none (show summaryOf (RunRecord.meta m) = none from rfl),
      List.filterMap_append, filterMap_summaryOf_results,
      show (([RunRecord.summary s]).filterMap summaryOf) = [s] from rfl,
      List.filterMap_cons_none (show keptResult (RunRecord.meta m) = none from rfl),
      List.filterMap_append, filterMap_keptResult_results _ hids,
      show (([RunRecord.summary s]).filterMap keptResult) = [] from rfl] at hp
    simp only [List.append_nil, List.nil_append, List.getLast?_singleton] at hp
    injection hp with hp
    subst hp
    exact hs

/-- **C2** (amended): every `runEval` summary satisfies
`pass + fail == total == len(results)`, `0 ≤ accuracy ≤ 1` and
`accuracy == pass/total` (0 when `total = 0`); and every run reconstructed
from a (possibly truncated) persisted run log satisfies the same invariant
provided each persisted result record has a non-empty id and question (a
missing summary record is recomputed from the persisted results). -/
theorem c2_summary_consistency (env : RunEnv) (runId : String)
    (meta : EvalRunMeta) (benchPairs : List QAPair) (limit : Option Nat)
    (docCount : Nat) (run : EvalRun) (trace : List RunEvent)
    (hok : runEval env runId meta benchPairs limit docCount = .ok (run, trace)) :
    summaryOK run.summary run.results ∧
    ((∀ p ∈ applyLimit limit benchPairs, p.id ≠ "" ∧ p.question ≠ "") →
      ∀ k stem run', 1 ≤ k →
        parseRunFile stem ((fileRecords trace).take k) = some run' →
        summaryOK run'.summary run'.results) := by
  obtain ⟨hsum, hrecs, hfields⟩ :=
    runEval_ok_spec env runId meta benchPairs limit docCount run trace hok
  have hOK : summaryOK run.summary run.results := by
    rw [hsum]
    exact mkSummary_ok _ _
  refine ⟨hOK, ?_⟩
  intro hq k stem run' hk hp
  rw [hrecs] at hp
  have hids : ∀ e ∈ run.results, e.id ≠ "" ∧ e.question ≠ "" := by
    intro e he
    rcases hfields e he with ⟨p, hpmem, hid, hques⟩
    rw [hid, hques]
    exact hq p hpmem
  exact parse_take_ok run.meta run.summary run.results stem hids hOK k run' hk hp

theorem c2_witness :
    runEval w2env "r2" w2meta w2pairs none 1 = .ok w2out ∧
    summaryOK w2out.1.summary w2out.1.results ∧
    parseRunFile "r2" ((fileRecords w2out.2).take 2) = some w2rec ∧
    summaryOK w2rec.summary w2rec.results := by
  have hok : runEval w2env "r2" w2meta w2pairs none 1 = .ok w2out := rfl
  have H := c2_summary_consistency w2env "r2" w2meta w2pairs none 1
    w2out.1 w2out.2 hok
  refine ⟨hok, H.1, rfl, ?_⟩
  exact H.2 (by decide) 2 "r2" w2rec (by decide) rfl

/-- C2 counterexample: a complete run file persisted by `runEval` for a
benchmark pair with an empty question parses back to a run whose kept
summary counts 1 result while the parsed result list is empty. -/
theorem c2_counterexample :
    (parseRunFile "rx" (fileRecords c2xTrace)).map
      (fun r => (r.summary.total, r.results.length)) = some (1, 0) := by
  rfl

/-! ### C3: worst-dimension selection -/

theorem updWorst_some (w : WorstDimension) (c : String × String × DimensionSlice) :
    updWorst (some w) c =
      if c.2.2.accuracy < w.accuracy ∨
         (c.2.2.accuracy = w.accuracy ∧ c.2.2.fail > w.failures.length)
      then some (mkWorst c) else some w := rfl

theorem foldl_updWorst_isSome (cs : List (String × String × DimensionSlice)) :
    ∀ w : WorstDimension, ∃ w', cs.foldl updWorst (some w) = some w' := by
  induction cs with
  | nil => intro w; exact ⟨w, rfl⟩
  | cons c cs ih =>
    intro w
    simp only [List.foldl_cons, updWorst_some]
    by_cases hc : c.2.2.accuracy < w.accuracy ∨
        (c.2.2.accuracy = w.accuracy ∧ c.2.2.fail > w.failures.length)
    · rw [if_pos hc]
      exact ih (mkWorst c)
    · rw [if_neg hc]
      exact ih w

theorem foldl_updWorst_spec (cs : List (String × String × DimensionSlice))
    (hfl : ∀ c ∈ cs, c.2.2.fail = c.2.2.failures.length) :
    ∀ w : WorstDimension, ∃ w', cs.foldl updWorst (some w) = some w' ∧
      (w' = w ∨ ∃ c ∈ cs, w' = mkWorst c) ∧
      (w'.accuracy ≤ w.accuracy ∧
        (w'.accuracy = w.accuracy → w.failures.length ≤ w'.failures.length)) ∧
      (∀ c ∈ cs, w'.accuracy ≤ c.2.2.accuracy ∧
        (w'.accuracy = c.2.2.accuracy →
          c.2.2.failures.length ≤ w'.failures.length)) := by
  induction cs with
  | nil =>
    intro w
    exact ⟨w, rfl, Or.inl rfl, ⟨le_refl _, fun _ => le_refl _⟩, by simp⟩
  | cons c cs ih =>
    have hflc : c.2.2.fail = c.2.2.failures.length := hfl c (List.mem_cons_self c cs)
    have hfl' : ∀ c' ∈ cs, c'.2.2.fail = c'.2.2.failures.length :=
      fun c' hc' => hfl c' (List.mem_cons_of_mem c hc')
    intro w
    simp only [List.foldl_cons]
    by_cases hc : c.2.2.accuracy < w.accuracy ∨
        (c.2.2.accuracy = w.accuracy ∧ c.2.2.fail > w.failures.length)
    · have hstep : updWorst (some w) c = some (mkWorst c) := by
        rw [updWorst_some, if_pos hc]
      rw [hstep]
      rcases ih hfl' (mkWorst c) with ⟨w', hw', hfrom, hrel, hall⟩
      have hrelc : w'.accuracy ≤ c.2.2.accuracy ∧
          (w'.accuracy = c.2.2.accuracy →
            c.2.2.failures.length ≤ w'.failures.length) := hrel
      refine ⟨w', hw', ?_, ?_, ?_⟩
      · rcases hfrom with rfl | ⟨c', hc', rfl⟩
        · exact Or.inr ⟨c, List.mem_cons_self c cs, rfl⟩
        · exact Or.inr ⟨c', List.mem_cons_of_mem c hc', rfl⟩
      · have hcw : c.2.2.accuracy ≤ w.accuracy := by
          rcases hc with h | ⟨h, _⟩
          · exact le_of_lt h
          · exact le_of_eq h
        refine ⟨le_trans hrelc.1 hcw, ?_⟩
        intro heq
        have hceq : c.2.2.accuracy = w.accuracy := le_antisymm hcw (by
          rw [← heq]; exact hrelc.1)
        rcases hc with h | ⟨_, hgt⟩
        · exact absurd hceq (ne_of_lt h)
        · have h1 : c.2.2.failures.length ≤ w'.failures.length :=
            hrelc.2 (by rw [heq, hceq])
          rw [hflc] at hgt
          omega
      · intro c' hc'
        rcases List.mem_cons.mp hc' with rfl | hmem
        · exact hrelc
        · exact hall c' hmem
    · have hstep : updWorst (some w) c = some w := by
        rw [updWorst_some, if_neg hc]
      rw [hstep]
      rcases ih hfl' w with ⟨w', hw', hfrom, hrel, hall⟩
      refine ⟨w', hw', ?_, hrel, ?_⟩
      · rcases hfrom with rfl | ⟨c', hc', rfl⟩
        · exact Or.inl rfl
        · exact Or.inr ⟨c', List.mem_cons_of_mem c hc', rfl⟩
      · intro c' hc'
        rcases List.mem_cons.mp hc' with rfl | hmem
        · push_neg at hc
          have hwc : w.accuracy ≤ c'.2.2.accuracy := hc.1
          refine ⟨le_trans hrel.1 hwc, ?_⟩
          intro heq
          have hceq : c'.2.2.accuracy = w.accuracy := le_antisymm (by
            rw [← heq]; exact hrel.1) hwc
          have hfle : c'.2.2.fail ≤ w.failures.length := hc.2 hceq
          have hwlen : w.failures.length ≤ w'.failures.length :=
            hrel.2 (by rw [heq, hceq])
          rw [hflc] at hfle
          omega
        · exact hall c' hmem

theorem findWorst_none_iff (dims : List (String × List (String × DimensionSlice))) :
    findWorst dims = none ↔ worstCandidates dims = [] := by
  unfold findWorst
  cases hcs : worstCandidates dims with
  | nil => simp
  | cons c cs =>
    simp only [List.foldl_cons]
    have hstep : updWorst none c = some (mkWorst c) := rfl
    rw [hstep]
    rcases foldl_updWorst_isSome cs (mkWorst c) with ⟨w', hw'⟩
    rw [hw']
    simp

theorem findWorst_spec (dims : List (String × List (String × DimensionSlice)))
    (hfl : ∀ c ∈ worstCandidates dims, c.2.2.fail = c.2.2.failures.length)
    (w : WorstDimension) (h : findWorst dims = some w) :
    (∃ c ∈ worstCandidates dims, w = mkWorst c) ∧
    (∀ c ∈ worstCandidates dims, w.accuracy ≤ c.2.2.accuracy ∧
      (w.accuracy = c.2.2.accuracy →
        c.2.2.failures.length ≤ w.failures.length)) := by
  unfold findWorst at h
  cases hcs : worstCandidates dims with
  | nil =>
    rw [hcs] at h
    exact absurd h (by simp)
  | cons c cs =>
    rw [hcs] at h
    simp only [List.foldl_cons] at h
    have hstep : updWorst none c = some (mkWorst c) := rfl
    rw [hstep] at h
    rw [hcs] at hfl
    have hfl' : ∀ c' ∈ cs, c'.2.2.fail = c'.2.2.failures.length :=
      fun c' hc' => hfl c' (List.mem_cons_of_mem c hc')
    rcases foldl_updWorst_spec cs hfl' (mkWorst c) with ⟨w', hw', hfrom, hrel, hall⟩
    rw [hw'] at h
    injection h with h
    subst h
    constructor
    · rcases hfrom with rfl | ⟨c', hc', rfl⟩
      · exact ⟨c, List.mem_cons_self c cs, rfl⟩
      · exact ⟨c', List.mem_cons_of_mem c hc', rfl⟩
    · intro c' hc'
      rcases List.mem_cons.mp hc' with rfl | hmem
      · exact hrel
      · exact hall c' hmem

theorem sliceOf_fail_eq (items : List EvalResultEntry) :
    (sliceOf items).fail = (sliceOf items).failures.length := by
  unfold sliceOf
  simp only [List.length_map]
  have hsplit : items.length = (items.filter (·.pass)).length +
      (items.filter (fun r => !r.pass)).length :=
    List.length_eq_length_filter_add (·.pass)
  omega

theorem sliceOf_accuracy_nonneg (items : List EvalResultEntry) :
    0 ≤ (sliceOf items).accuracy := by
  unfold sliceOf
  simp only []
  by_cases h : items.length > 0
  · rw [if_pos h]
    positivity
  · rw [if_neg h]

theorem sliceOf_accuracy_allfail (items : List EvalResultEntry)
    (h : ∀ x ∈ items, x.pass = false) : (sliceOf items).accuracy = 0 := by
  have hp : (items.filter (·.pass)).length = 0 := by
    rw [List.filter_eq_nil_iff.mpr (fun a ha => by rw [h a ha]; simp)]
    rfl
  unfold sliceOf
  simp only [hp]
  by_cases hl : items.length > 0
  · rw [if_pos hl]
    norm_num
  · rw [if_neg hl]

theorem analyze_candidates_spec (run : EvalRun) :
    ∀ c ∈ worstCandidates (analysisDims (analyzeByDimension run)),
      c.2.2.fail = c.2.2.failures.length ∧
      ((∀ r ∈ run.results, r.pass = false) → c.2.2.accuracy = 0) := by
  intro c hc
  rcases List.mem_flatMap.mp hc with ⟨d, hd, hcd⟩
  rcases List.mem_filterMap.mp hcd with ⟨vs, hvs, hval⟩
  have hslice : ∃ keyFn, vs ∈ sliceBy run.results keyFn := by
    have hdims : analysisDims (analyzeByDimension run) =
        [("questionType", sliceBy run.results (fun r => r.dimensions.questionType)),
         ("difficulty", sliceBy run.results (fun r => r.dimensions.difficulty)),
         ("sourceFormat", sliceBy run.results (fun r => r.dimensions.sourceFormat)),
         ("edgeCase", sliceBy run.results (fun r => r.dimensions.edgeCase))] := rfl
    rw [hdims] at hd
    simp only [List.mem_cons, List.not_mem_nil, or_false] at hd
    rcases hd with rfl | rfl | rfl | rfl
    · exact ⟨_, hvs⟩
    · exact ⟨_, hvs⟩
    · exact ⟨_, hvs⟩
    · exact ⟨_, hvs⟩
  rcases hslice with ⟨keyFn, hmem⟩
  unfold sliceBy at hmem
  rcases List.mem_map.mp hmem with ⟨k, _, hk⟩
  have hs : vs.2 = sliceOf (run.results.filter (fun r => dimKey keyFn r = k)) := by
    rw [← hk]
  have hcs : c.2.2 = vs.2 := by
    by_cases h1 : vs.1 = "unknown"
    · rw [if_pos h1] at hval
      cases hval
    · rw [if_neg h1] at hval
      by_cases h2 : vs.2.total = 0
      · rw [if_pos h2] at hval
        cases hval
      · rw [if_neg h2] at hval
        injection hval with hval
        rw [← hval]
  rw [hcs, hs]
  refine ⟨sliceOf_fail_eq _, fun hall => sliceOf_accuracy_allfail _ ?_⟩
  intro x hx
  exact hall x (List.mem_of_mem_filter hx)

/-- **C3** (amended): `analyzeByDimension`'s worst dimension is computed by
`findWorst` over the non-`"unknown"`, non-empty slices; when non-null it is
a considered slice of minimum accuracy, ties broken by larger
`failures.length`; it is null exactly when no slice is considered; and on an
all-fail run it is non-null with accuracy 0 *provided* at least one slice is
considered (a run whose results all lack dimension tags yields a null worst
dimension even when all results fail). -/
theorem c3_worst_dimension (run : EvalRun) :
    ((analyzeByDimension run).worst =
      findWorst (analysisDims (analyzeByDimension run))) ∧
    ((analyzeByDimension run).worst = none ↔
      worstCandidates (analysisDims (analyzeByDimension run)) = []) ∧
    (∀ w, (analyzeByDimension run).worst = some w →
      (∃ c ∈ worstCandidates (analysisDims (analyzeByDimension run)), w = mkWorst c) ∧
      ∀ c ∈ worstCandidates (analysisDims (analyzeByDimension run)),
        w.accuracy ≤ c.2.2.accuracy ∧
        (w.accuracy = c.2.2.accuracy →
          c.2.2.failures.length ≤ w.failures.length)) ∧
    ((∀ r ∈ run.results, r.pass = false) →
      worstCandidates (analysisDims (analyzeByDimension run)) ≠ [] →
      ∃ w, (analyzeByDimension run).worst = some w ∧ w.accuracy = 0) := by
  have heq : (analyzeByDimension run).worst =
      findWorst (analysisDims (analyzeByDimension run)) := rfl
  have hfl : ∀ c ∈ worstCandidates (analysisDims (analyzeByDimension run)),
      c.2.2.fail = c.2.2.failures.length :=
    fun c hc => (analyze_candidates_spec run c hc).1
  refine ⟨heq, by rw [heq]; exact findWorst_none_iff _, ?_, ?_⟩
  · intro w hw
    rw [heq] at hw
    exact findWorst_spec _ hfl w hw
  · intro hall hne
    have hsome : (analyzeByDimension run).worst ≠ none := by
      rw [heq]
      intro h0
      exact hne ((findWorst_none_iff _).mp h0)
    rcases hx : (analyzeByDimension run).worst with _ | w
    · exact absurd hx hsome
    · refine ⟨w, rfl, ?_⟩
      rw [heq] at hx
      rcases (findWorst_spec _ hfl w hx).1 with ⟨c, hc, rfl⟩
      have := (analyze_candidates_spec run c hc).2 hall
      exact this

theorem c3_witness :
    (∀ r ∈ w3run.results, r.pass = false) ∧
    worstCandidates (analysisDims (analyzeByDimension w3run)) ≠ [] ∧
    (∃ w, (analyzeByDimension w3run).worst = some w ∧ w.accuracy = 0) := by
  refine ⟨by decide, by decide, ?_⟩
  exact (c3_worst_dimension w3run).2.2.2 (by decide) (by decide)

/-- C3 counterexample: an all-fail run whose results carry no dimension
tags has a `null` worst dimension, contradicting the claim that every
all-fail run reports a non-null worst dimension. -/
theorem c3_counterexample :
    (analyzeByDimension c3xRun).worst = none ∧
    c3xRun.results.all (fun r => !r.pass) = true ∧
    c3xRun.results.length = 1 := by
  refine ⟨by rfl, by rfl, by rfl⟩

/-! ### C7: reformulation detection -/

theorem range_drop_two {i : Nat} (h : 2 ≤ i) :
    (List.range i).drop (i - 2) = [i - 2, i - 1] := by
  obtain ⟨k, rfl⟩ : ∃ k, i = k + 2 := ⟨i - 2, by omega⟩
  show (List.range (k + 2)).drop k = [k, k + 1]
  rw [List.range_add,
    show List.map (fun x => k + x) (List.range 2) = [k, k + 1] from rfl,
    List.drop_left' (List.length_range k)]

theorem reformStep_char2 (qts : List UserTurn) (i : Nat) (h2 : 2 ≤ i)
    (current prev2 prev1 : UserTurn)
    (hc : qts.get? i = some current)
    (hp2 : qts.get? (i - 2) = some prev2)
    (hp1 : qts.get? (i - 1) = some prev1) :
    reformStep qts i =
      if wordOverlap (significantWords prev2.content)
          (significantWords current.content) ≥ 2/5 then
        some (mkReformSignal prev2 current (wordOverlap
          (significantWords prev2.content) (significantWords current.content)))
      else if wordOverlap (significantWords prev1.content)
          (significantWords current.content) ≥ 2/5 then
        some (mkReformSignal prev1 current (wordOverlap
          (significantWords prev1.content) (significantWords current.content)))
      else none := by
  unfold reformStep
  rw [hc, range_drop_two h2]
  simp only []
  have hg2 : reformCheck current qts (i - 2) =
      if wordOverlap (significantWords prev2.content)
          (significantWords current.content) ≥ 2/5 then
        some (prev2, wordOverlap (significantWords prev2.content)
          (significantWords current.content))
      else none := by
    unfold reformCheck
    rw [hp2]
  have hg1 : reformCheck current qts (i - 1) =
      if wordOverlap (significantWords prev1.content)
          (significantWords current.content) ≥ 2/5 then
        some (prev1, wordOverlap (significantWords prev1.content)
          (significantWords current.content))
      else none := by
    unfold reformCheck
    rw [hp1]
  by_cases hA : wordOverlap (significantWords prev2.content)
      (significantWords current.content) ≥ 2/5
  · rw [List.filterMap_cons_some (by rw [hg2, if_pos hA]), List.head?_cons,
      Option.map_some', if_pos hA]
  · rw [List.filterMap_cons_none (by rw [hg2, if_neg hA]), if_neg hA]
    by_cases hB : wordOverlap (significantWords prev1.content)
        (significantWords current.content) ≥ 2/5
    · rw [List.filterMap_cons_some (by rw [hg1, if_pos hB]), List.head?_cons,
        Option.map_some', if_pos hB]
    · rw [List.filterMap_cons_none (by rw [hg1, if_neg hB]), if_neg hB]
      rfl

theorem reformStep_char1 (qts : List UserTurn) (current prev : UserTurn)
    (hc : qts.get? 1 = some current) (hp : qts.get? 0 = some prev) :
    reformStep qts 1 =
      if wordOverlap (significantWords prev.content)
          (significantWords current.content) ≥ 2/5 then
        some (mkReformSignal prev current (wordOverlap
          (significantWords prev.content) (significantWords current.content)))
      else none := by
  unfold reformStep
  rw [hc, show (List.range 1).drop (1 - 2) = [0] from rfl]
  simp only []
  have hg : reformCheck current qts 0 =
      if wordOverlap (significantWords prev.content)
          (significantWords current.content) ≥ 2/5 then
        some (prev, wordOverlap (significantWords prev.content)
          (significantWords current.content))
      else none := by
    unfold reformCheck
    rw [hp]
  by_cases hA : wordOverlap (significantWords prev.content)
      (significantWords current.content) ≥ 2/5
  · rw [List.filterMap_cons_some (by rw [hg, if_pos hA]), List.head?_cons,
      Option.map_some', if_pos hA]
  · rw [List.filterMap_cons_none (by rw [hg, if_neg hA]), if_neg hA]
    rfl

theorem reformStep_signal {qts : List UserTurn} {i : Nat} {s : Signal}
    (h : reformStep qts i = some s) : s.signal = SignalType.reformulation := by
  unfold reformStep at h
  cases hq : qts.get? i with
  | none =>
    rw [hq] at h
    exact absurd h (by simp)
  | some current =>
    rw [hq] at h
    simp only [] at h
    rcases Option.map_eq_some'.mp h with ⟨po, _, hs⟩
    rw [← hs]
    rfl

theorem detect_filter_reformulation (fc fs : String → Nat)
    (entries : List TurnEntry) :
    (detectSignals fc fs entries).filter
        (fun s => s.signal == SignalType.reformulation) =
      reformSignals ((userTurnsOf entries).filter
        (fun ut => isQuestionSD ut.content)) := by
  unfold detectSignals
  simp only [List.filter_append]
  have hcorr : (correctionSignals fc (userTurnsOf entries)).filter
      (fun s => s.signal == SignalType.reformulation) = [] := by
    rw [List.filter_eq_nil_iff]
    intro s hs
    rcases List.mem_filterMap.mp hs with ⟨ut, _, hsome⟩
    by_cases h : fc ut.content > 0
    · rw [if_pos h] at hsome
      injection hsome with hsome
      rw [← hsome]
      show ¬(SignalType.correction == SignalType.reformulation) = true
      decide
    · rw [if_neg h] at hsome
      cases hsome
  have hsat : (satisfactionSignals fs (userTurnsOf entries)).filter
      (fun s => s.signal == SignalType.reformulation) = [] := by
    rw [List.filter_eq_nil_iff]
    intro s hs
    rcases List.mem_filterMap.mp hs with ⟨ut, _, hsome⟩
    by_cases h : fs ut.content > 0
    · rw [if_pos h] at hsome
      injection hsome with hsome
      rw [← hsome]
      show ¬(SignalType.satisfaction == SignalType.reformulation) = true
      decide
    · rw [if_neg h] at hsome
      cases hsome
  have hfup : (followUpSignals (userTurnsOf entries)).filter
      (fun s => s.signal == SignalType.reformulation) = [] := by
    unfold followUpSignals
    by_cases h : (userTurnsOf entries).length ≥ 3
    · rw [if_pos h]
      cases (userTurnsOf entries).getLast? with
      | none => rfl
      | some last => rfl
    · rw [if_neg h]
      rfl
  have href : (reformSignals ((userTurnsOf entries).filter
      (fun ut => isQuestionSD ut.content))).filter
        (fun s => s.signal == SignalType.reformulation) =
      reformSignals ((userTurnsOf entries).filter
        (fun ut => isQuestionSD ut.content)) := by
    rw [List.filter_eq_self]
    intro s hs
    rcases List.mem_filterMap.mp hs with ⟨i, _, hsome⟩
    have := reformStep_signal hsome
    simp [this]
  rw [hcorr, hsat, hfup, href]
  simp

/-- **C7** (amended): in `detectSignals`, the reformulation signals are
exactly those of the reformulation pass over the question-shaped user
turns; each question contributes at most one optional signal; a signal
fires iff one of the two preceding questions overlaps at ≥ 0.4, with
confidence `min(0.5 + overlap, 1)`; and when both preceding questions
qualify, iteration order prefers the *earlier* (farther) one — not the
closer one. -/
theorem c7_reformulation (fc fs : String → Nat) (entries : List TurnEntry) :
    ((detectSignals fc fs entries).filter
        (fun s => s.signal == SignalType.reformulation) =
      reformSignals ((userTurnsOf entries).filter
        (fun ut => isQuestionSD ut.content))) ∧
    (∀ qts : List UserTurn,
      reformSignals qts =
        ((List.range qts.length).drop 1).filterMap (reformStep qts)) ∧
    (∀ (qts : List UserTurn) (i : Nat) (current prev2 prev1 : UserTurn),
      2 ≤ i → qts.get? i = some current →
      qts.get? (i - 2) = some prev2 → qts.get? (i - 1) = some prev1 →
      reformStep qts i =
        if wordOverlap (significantWords prev2.content)
            (significantWords current.content) ≥ 2/5 then
          some (mkReformSignal prev2 current (wordOverlap
            (significantWords prev2.content) (significantWords current.content)))
        else if wordOverlap (significantWords prev1.content)
            (significantWords current.content) ≥ 2/5 then
          some (mkReformSignal prev1 current (wordOverlap
            (significantWords prev1.content) (significantWords current.content)))
        else none) ∧
    (∀ (qts : List UserTurn) (current prev : UserTurn),
      qts.get? 1 = some current → qts.get? 0 = some prev →
      reformStep qts 1 =
        if wordOverlap (significantWords prev.content)
            (significantWords current.content) ≥ 2/5 then
          some (mkReformSignal prev current (wordOverlap
            (significantWords prev.content) (significantWords current.content)))
        else none) :=
  ⟨detect_filter_reformulation fc fs entries, fun _ => rfl,
    fun qts i current prev2 prev1 h2 hc hp2 hp1 =>
      reformStep_char2 qts i h2 current prev2 prev1 hc hp2 hp1,
    fun qts current prev hc hp => reformStep_char1 qts current prev hc hp⟩

theorem c7_witness :
    c7xQts.get? 2 = some c7xQ2 ∧
    (reformStep c7xQts 2 =
      if wordOverlap (significantWords c7xQ0.content)
          (significantWords c7xQ2.content) ≥ 2/5 then
        some (mkReformSignal c7xQ0 c7xQ2 (wordOverlap
          (significantWords c7xQ0.content) (significantWords c7xQ2.content)))
      else if wordOverlap (significantWords c7xQ1.content)
          (significantWords c7xQ2.content) ≥ 2/5 then
        some (mkReformSignal c7xQ1 c7xQ2 (wordOverlap
          (significantWords c7xQ1.content) (significantWords c7xQ2.content)))
      else none) ∧
    (detectSignals (fun _ => 0) (fun _ => 0) c7xEntries).filter
        (fun s => s.signal == SignalType.reformulation) =
      reformSignals ((userTurnsOf c7xEntries).filter
        (fun ut => isQuestionSD ut.content)) :=
  ⟨rfl,
    (c7_reformulation (fun _ => 0) (fun _ => 0) c7xEntries).2.2.1
      c7xQts 2 c7xQ2 c7xQ0 c7xQ1 (by omega) rfl rfl rfl,
    (c7_reformulation (fun _ => 0) (fun _ => 0) c7xEntries).1⟩

/-- C7 counterexample: at the third question both preceding questions
qualify (overlaps 0.4 and 1.0), and the fired signal is built from the
*earlier* question (overlap 0.4, confidence 0.9) — not the closer one
(overlap 1.0, which would give confidence 1). -/
theorem c7_counterexample :
    wordOverlap (significantWords c7xQ0.content)
      (significantWords c7xQ2.content) = 2/5 ∧
    wordOverlap (significantWords c7xQ1.content)
      (significantWords c7xQ2.content) = 1 ∧
    reformStep c7xQts 2 = some (mkReformSignal c7xQ0 c7xQ2 (2/5)) ∧
    (mkReformSignal c7xQ0 c7xQ2 (2/5)).confidence = 9/10 ∧
    (mkReformSignal c7xQ1 c7xQ2 1).confidence = 1 ∧
    ((9 : ℚ)/10) ≠ 1 := by
  have h02 : wordOverlap (significantWords c7xQ0.content)
      (significantWords c7xQ2.content) = ((2 : ℕ) : ℚ)/((5 : ℕ) : ℚ) := rfl
  have h02' : wordOverlap (significantWords c7xQ0.content)
      (significantWords c7xQ2.content) = 2/5 := by
    rw [h02]
    norm_num
  have h12 : wordOverlap (significantWords c7xQ1.content)
      (significantWords c7xQ2.content) = ((4 : ℕ) : ℚ)/((4 : ℕ) : ℚ) := rfl
  have h12' : wordOverlap (significantWords c7xQ1.content)
      (significantWords c7xQ2.content) = 1 := by
    rw [h12]
    norm_num
  have hge : wordOverlap (significantWords c7xQ0.content)
      (significantWords c7xQ2.content) ≥ 2/5 := by
    rw [h02']
  have hchar := reformStep_char2 c7xQts 2 (by omega) c7xQ2 c7xQ0 c7xQ1 rfl rfl rfl
  refine ⟨h02', h12', ?_, ?_, ?_, by norm_num⟩
  · rw [hchar, if_pos hge, h02']
  · have hproj : (mkReformSignal c7xQ0 c7xQ2 (2/5)).confidence =
        min ((2 : ℚ)/5 + 1/2) 1 := by
      show min ((1 : ℚ)/2 + 2/5) 1 = min ((2 : ℚ)/5 + 1/2) 1
      ring_nf
    rw [hproj, min_eq_left (by norm_num)]
    norm_num
  · have hproj : (mkReformSignal c7xQ1 c7xQ2 1).confidence =
        min ((1 : ℚ)/2 + 1) 1 := rfl
    rw [hproj, min_eq_right (by norm_num)]

/-! ### C1: the proposed delta is additive, but its length is not checked -/

/-- **C1** (amended): `suggestImprovement` uses the curator's delta strictly
additively — the Test and Regression stages run against
`currentPrompt + "\n\n" + proposedDelta`, and applying the improvement
overwrites the prompt with the same concatenation, so the current prompt is
preserved verbatim as a prefix.  No caller verifies the delta's length, so
`len(proposedDelta) < len(currentPrompt)` is not guaranteed. -/
theorem c1_delta_is_additive (env : ImproverEnv) (run : EvalRun)
    (impr : Improvement) (newPrompt : String)
    (h : suggestImprovement env run = .ok (impr, newPrompt)) :
    newPrompt = env.currentPrompt ++ "\n\n" ++ impr.proposedDelta ∧
    applyImprovementPrompt env.currentPrompt impr =
      env.currentPrompt ++ "\n\n" ++ impr.proposedDelta ∧
    (∃ t, newPrompt = env.currentPrompt ++ t) := by
  unfold suggestImprovement at h
  by_cases h1 : (run.results.filter (fun r => !r.pass)).length = 0
  · rw [if_pos h1] at h
    exact absurd h (by simp)
  rw [if_neg h1] at h
  cases hw : (analyzeByDimension run).worst with
  | none =>
    rw [hw] at h
    exact absurd h (by simp)
  | some worst =>
    rw [hw] at h
    simp only [] at h
    by_cases h2 : worst.failures.length = 0
    · rw [if_pos h2] at h
      exact absurd h (by simp)
    rw [if_neg h2] at h
    injection h with h
    injection h with himpr hnp
    subst himpr
    subst hnp
    exact ⟨rfl, rfl,
      ⟨"\n\n" ++ env.curateResp env.currentPrompt (env.reflectResp worst.failures) worst,
        String.append_assoc _ _ _⟩⟩

theorem c1_witness :
    suggestImprovement c1xEnv c1xRun = .ok c1xOut ∧
    c1xOut.2 = c1xEnv.currentPrompt ++ "\n\n" ++ c1xOut.1.proposedDelta ∧
    applyImprovementPrompt c1xEnv.currentPrompt c1xOut.1 =
      c1xEnv.currentPrompt ++ "\n\n" ++ c1xOut.1.proposedDelta ∧
    (∃ t, c1xOut.2 = c1xEnv.currentPrompt ++ t) := by
  have hok : suggestImprovement c1xEnv c1xRun = .ok c1xOut := rfl
  have H := c1_delta_is_additive c1xEnv c1xRun c1xOut.1 c1xOut.2 hok
  exact ⟨hok, H.1, H.2.1, H.2.2⟩

/-- C1 counterexample: a successful `suggestImprovement` whose proposed
delta (18 chars) is longer than the whole current prompt (1 char) — no
length verification happens. -/
theorem c1_counterexample :
    suggestImprovement c1xEnv c1xRun = .ok c1xOut ∧
    c1xOut.1.proposedDelta.length = 18 ∧
    c1xEnv.currentPrompt.length = 1 ∧
    ¬(c1xOut.1.proposedDelta.length < c1xEnv.currentPrompt.length) := by
  refine ⟨rfl, rfl, rfl, ?_⟩
  have h1 : c1xOut.1.proposedDelta.length = 18 := rfl
  have h2 : c1xEnv.currentPrompt.length = 1 := rfl
  omega

/-! ### C9: benchmark version immutability -/

theorem fsWrite_apply (f : String → Option String) (p c q : String) :
    fsWrite f p c q = if q = p then some c else f q := rfl

theorem versionFilePath_length (s : String) :
    (versionFilePath s).length = 15 + s.length := by
  unfold versionFilePath
  rw [String.length_append, String.length_append]
  have h1 : ("qa-pairs-" : String).length = 9 := rfl
  have h2 : (".jsonl" : String).length = 6 := rfl
  omega

theorem versionFilePath_ne_latest (s : String) :
    ¬(versionFilePath s = latestFilePath) := by
  intro h
  have hlen := congrArg String.length h
  rw [versionFilePath_length] at hlen
  have h14 : latestFilePath.length = 14 := rfl
  omega

theorem versionFilePath_inj {a b : String}
    (h : versionFilePath a = versionFilePath b) : a = b := by
  unfold versionFilePath at h
  have hd := congrArg String.data h
  simp only [String.data_append] at hd
  exact String.ext (List.append_cancel_left (List.append_cancel_right hd))

theorem vStr_inj {a b : Nat} (h : ("v" ++ toString a : String) = "v" ++ toString b) :
    a = b := by
  have hd := congrArg String.data h
  simp only [String.data_append] at hd
  exact natToString_inj (String.ext (List.append_cancel_left hd))

theorem removeFirstV_vStr (k : Nat) :
    removeFirstV ("v" ++ toString k : String).data = (toString k).data := by
  have hdata : ("v" ++ toString k : String).data = 'v' :: (toString k).data := by
    rw [String.data_append]
    rfl
  rw [hdata]
  simp [removeFirstV]

theorem parseVersion_vStr (k : Nat) :
    jsParseInt (removeFirstV ("v" ++ toString k : String).data) = some k := by
  rw [removeFirstV_vStr, toString_data_eq_decRepr]
  exact jsParseInt_decRepr k

theorem foldl_max_init (l : List Nat) : ∀ a : Nat, a ≤ l.foldl max a := by
  induction l with
  | nil => intro a; exact le_refl a
  | cons x l ih =>
    intro a
    exact le_trans (le_max_left a x) (ih (max a x))

theorem le_foldl_max {x : Nat} {l : List Nat} (h : x ∈ l) :
    ∀ a : Nat, x ≤ l.foldl max a := by
  induction l with
  | nil => cases h
  | cons y l ih =>
    intro a
    rcases List.mem_cons.mp h with rfl | hmem
    · show x ≤ l.foldl max (max a x)
      exact le_trans (le_max_right a x) (foldl_max_init l (max a x))
    · show x ≤ l.foldl max (max a y)
      exact ih hmem (max a y)

theorem wf_all_parse {m : BenchmarkManifest} (hwf : WFManifest m) :
    (m.versions.map (fun v => jsParseInt (removeFirstV v.version.data))).all
      (·.isSome) = true := by
  rw [List.all_eq_true]
  intro x hx
  rcases List.mem_map.mp hx with ⟨v, hv, rfl⟩
  rcases hwf v hv with ⟨k, hk⟩
  rw [hk, parseVersion_vStr]
  rfl

theorem nextVersion_eq {m : BenchmarkManifest} (hne : m.versions ≠ [])
    (hall : (m.versions.map (fun v => jsParseInt (removeFirstV v.version.data))).all
      (·.isSome) = true) :
    nextVersion m = "v" ++ toString
      (((m.versions.map (fun v => jsParseInt (removeFirstV v.version.data))).filterMap
        id).foldl max 0 + 1) := by
  unfold nextVersion
  rw [if_neg (by simpa [List.isEmpty_iff] using hne)]
  simp only []
  rw [if_pos hall]

theorem nextVersion_fresh {m : BenchmarkManifest} (hwf : WFManifest m)
    {v : BenchmarkVersion} (hv : v ∈ m.versions) :
    ¬(v.version = nextVersion m) := by
  have hne : m.versions ≠ [] := by
    intro h0
    rw [h0] at hv
    cases hv
  rcases hwf v hv with ⟨k, hk⟩
  have hnext := nextVersion_eq hne (wf_all_parse hwf)
  intro heq
  rw [hk, hnext] at heq
  have hkN := vStr_inj heq
  have hkmem : k ∈ (m.versions.map
      (fun v => jsParseInt (removeFirstV v.version.data))).filterMap id := by
    rw [List.mem_filterMap]
    refine ⟨some k, ?_, rfl⟩
    rw [List.mem_map]
    exact ⟨v, hv, by rw [hk, parseVersion_vStr]⟩
  have hle := le_foldl_max hkmem 0
  omega

/-- **C9**: `saveBenchmarkVersion` writes the new version's file, never
touches the bytes of any previously recorded version's file, and leaves the
manifest with `latest` equal to the newly saved version id and that
version's metadata appended to `versions`. -/
theorem c9_save_benchmark_version (env : SaveEnv) (st : BenchStore)
    (pairs : List QAPair) (d : Option String)
    (out : BenchStore × BenchmarkVersion)
    (hwf : WFManifest (loadManifest st))
    (hout : saveBenchmarkVersion env st pairs d = out) :
    out.2.version = nextVersion (loadManifest st) ∧
    out.1.files (versionFilePath out.2.version) = some (pairsContent env pairs) ∧
    (∀ v ∈ (loadManifest st).versions,
      out.1.files (versionFilePath v.version) =
        st.files (versionFilePath v.version)) ∧
    out.1.manifest = some { latest := out.2.version
                            versions := (loadManifest st).versions ++ [out.2] } ∧
    out.2 = { version := nextVersion (loadManifest st)
              timestamp := env.timestamp, pairCount := pairs.length
              corpusDocCount := env.corpusDocCount
              systemPromptHash := env.systemPromptHash, description := d } := by
  subst hout
  refine ⟨rfl, ?_, ?_, rfl, rfl⟩
  · show fsWrite
      (fsWrite st.files (versionFilePath (nextVersion (loadManifest st)))
        (pairsContent env pairs))
      latestFilePath
      ((fsWrite st.files (versionFilePath (nextVersion (loadManifest st)))
        (pairsContent env pairs)
        (versionFilePath (nextVersion (loadManifest st)))).getD "")
      (versionFilePath (nextVersion (loadManifest st))) =
      some (pairsContent env pairs)
    rw [fsWrite_apply, if_neg (versionFilePath_ne_latest _), fsWrite_apply,
      if_pos rfl]
  · intro v hv
    have hneq : ¬(versionFilePath v.version =
        versionFilePath (nextVersion (loadManifest st))) := by
      intro heq
      exact nextVersion_fresh hwf hv (versionFilePath_inj heq)
    show fsWrite
      (fsWrite st.files (versionFilePath (nextVersion (loadManifest st)))
        (pairsContent env pairs))
      latestFilePath
      ((fsWrite st.files (versionFilePath (nextVersion (loadManifest st)))
        (pairsContent env pairs)
        (versionFilePath (nextVersion (loadManifest st)))).getD "")
      (versionFilePath v.version) =
      st.files (versionFilePath v.version)
    rw [fsWrite_apply, if_neg (versionFilePath_ne_latest _), fsWrite_apply,
      if_neg hneq]

theorem c9_witness :
    WFManifest (loadManifest w9st) ∧
    w9out.2.version = "v2" ∧
    (w9out.2.version = nextVersion (loadManifest w9st) ∧
     w9out.1.files (versionFilePath w9out.2.version) =
       some (pairsContent w9env []) ∧
     (∀ v ∈ (loadManifest w9st).versions,
       w9out.1.files (versionFilePath v.version) =
         w9st.files (versionFilePath v.version)) ∧
     w9out.1.manifest = some { latest := w9out.2.version
                               versions := (loadManifest w9st).versions ++ [w9out.2] } ∧
     w9out.2 = { version := nextVersion (loadManifest w9st)
                 timestamp := w9env.timestamp, pairCount := ([] : List QAPair).length
                 corpusDocCount := w9env.corpusDocCount
                 systemPromptHash := w9env.systemPromptHash, description := none }) ∧
    w9out.1.files (versionFilePath "v1") = some "OLD" := by
  have hwf : WFManifest (loadManifest w9st) := by
    intro v hv
    have hv1 : v = w9meta1 := List.mem_singleton.mp hv
    subst hv1
    exact ⟨1, by decide⟩
  refine ⟨hwf, by decide, c9_save_benchmark_version w9env w9st [] none w9out hwf rfl, ?_⟩
  have H := (c9_save_benchmark_version w9env w9st [] none w9out hwf rfl).2.2.1
  have := H w9meta1 (List.mem_singleton.mpr rfl)
  rw [show w9meta1.version = "v1" from rfl] at this
  rw [this]
  rw [show w9st.files (versionFilePath "v1") = some "OLD" from by
    rw [show w9st.files = fun q => if q = versionFilePath "v1" then some "OLD" else none from rfl]
    simp]

end Loop
